import Mathlib

/-!
The PulseAudio backend of Mumble (`src/mumble/PulseAudio.cpp`).

A shallow embedding of the parts of `PulseAudioSystem` that decide how other
applications are attenuated and restored, how the device lists are built and
how the three streams are (re)connected.

Conventions of the embedding

* `QHash<K, V>` is an association list; lookups return the first binding of a
  key, `QHash.insert` overwrites an existing binding in place and otherwise
  appends.  The iteration order of a real `QHash` is unspecified, so nothing
  below is stated about the order in which a hash is traversed.
* A callback that takes `userdata` is a function from the `PulseAudioSystem`
  state to the new state.  Calls into libpulse and `qwcWait.wakeAll()` are
  appended to the ghost field `issued`, in program order.  `qWarning` output is
  not recorded.
* `uint32_t` indexes are `Nat` (no arithmetic is done on them) and the `int`
  counter `iRemainingOperations` is an `Int`.
* libpulse itself is not part of the repository: `pa_cvolume_equal` and
  `pa_sw_cvolume_multiply_scalar` are parameters of the functions that call
  them.
-/

namespace Mumble

/-! ## Qt containers -/

/-- Association-list model of `QHash<K, V>`. -/
abbrev QHash (K V : Type) := List (K × V)

namespace QHash

variable {K V : Type} [DecidableEq K]

/-- Lookup of the binding of `k`, if any (`QHash::find`). -/
def find? : QHash K V → K → Option V
  | [], _ => none
  | (k', v) :: t, k => if k' = k then some v else find? t k

/-- `QHash::contains`. -/
def contains (h : QHash K V) (k : K) : Bool := (find? h k).isSome

/-- `QHash::value`: the bound value, or a default-constructed one. -/
def value [Inhabited V] (h : QHash K V) (k : K) : V := (find? h k).getD default

/-- Assignment through `operator[]` / `QHash::insert`: overwrite the binding of
`k` or add a new one. -/
def insert : QHash K V → K → V → QHash K V
  | [], k, v => [(k, v)]
  | (k', v') :: t, k, v => if k' = k then (k, v) :: t else (k', v') :: insert t k v

/-- `QHash::remove`. -/
def remove (h : QHash K V) (k : K) : QHash K V := h.filter (fun p => !decide (p.1 = k))

/-- `QHash::keys`. -/
def keys (h : QHash K V) : List K := h.map Prod.fst

/-- `QHash::count`. -/
def count (h : QHash K V) : Nat := h.length

end QHash

/-! ## libpulse data -/

/-- `pa_cvolume`: a channel count and one volume per channel. -/
structure pa_cvolume where
  channels : Nat
  values : List Nat
  deriving DecidableEq, Repr, Inhabited

/-- `pa_proplist_gets`: the value of a property, `none` standing for `NULL`. -/
def pa_proplist_gets (p : List (String × String)) (key : String) : Option String :=
  QHash.find? p key

/-- `QLatin1String(const char *)` followed by the conversion to `QString`; a
null pointer gives the empty string. -/
def QLatin1String (s : Option String) : String := s.getD ""

/-- The fields of `pa_sink_input_info` that the callbacks read. -/
structure pa_sink_input_info where
  index : Nat
  name : String
  volume : pa_cvolume
  proplist : List (String × String)
  deriving DecidableEq, Repr, Inhabited

/-- An entry of the stream-restore database (`pa_ext_stream_restore_info`). -/
structure pa_ext_stream_restore_info where
  name : String
  channel_map : List Nat
  volume : pa_cvolume
  device : Option String
  mute : Bool
  deriving DecidableEq, Repr, Inhabited

/-- `pa_stream_state_t`. -/
inductive pa_stream_state where
  | PA_STREAM_UNCONNECTED
  | PA_STREAM_CREATING
  | PA_STREAM_READY
  | PA_STREAM_FAILED
  | PA_STREAM_TERMINATED
  deriving DecidableEq, Repr, Inhabited

/-- The three streams the system owns. -/
inductive StreamRole where
  | pasOutput
  | pasInput
  | pasSpeaker
  deriving DecidableEq, Repr, Inhabited

/-- Calls that leave `PulseAudioSystem`, in the order they are made.  The
boolean of `pa_context_set_sink_input_volume` tells whether
`restore_volume_success_callback` was passed as completion callback; the boolean
of `pa_context_get_sink_input_info_list` is `true` for the listing answered by
`restore_sink_input_list_callback` and `false` for the one answered by
`volume_sink_input_list_callback`.  `pa_stream_write` carries the bytes handed
to the stream.  `setVolumes_called` is a ghost marker, not a library call: it
records that `write_callback` reached its call of `setVolumes()`. -/
inductive Effect where
  | pa_context_set_sink_input_volume (idx : Nat) (volume : pa_cvolume) (cb : Bool)
  | pa_context_get_sink_input_info_list (restore : Bool)
  | pa_ext_stream_restore_read
  | pa_ext_stream_restore_write (info : pa_ext_stream_restore_info)
  | qwcWait_wakeAll
  | defer_enable (b : Bool)
  | pa_stream_unref (s : StreamRole)
  | pa_stream_new (s : StreamRole) (name : String)
  | pa_stream_disconnect (s : StreamRole)
  | pa_stream_connect_playback (s : StreamRole) (dev : String)
  | pa_stream_connect_record (s : StreamRole) (dev : String)
  | pa_stream_write (s : StreamRole) (data : List Nat)
  | pa_context_get_server_info
  | pa_context_get_sink_info_list
  | pa_context_get_source_info_list
  | setVolumes_called
  deriving DecidableEq, Repr, Inhabited

/-! ## Program data -/

/-- Name of Mumble's own playback stream. -/
def mumble_sink_input : String := "Mumble Speakers"

/-- Name of the echo-reference stream. -/
def mumble_echo : String := "Mumble Speakers (Echo)"

/-- `PulseAttenuation`: what is remembered about an attenuated sink input. -/
structure PulseAttenuation where
  index : Nat := 0
  name : String := ""
  stream_restore_id : String := ""
  normal_volume : pa_cvolume := default
  attenuated_volume : pa_cvolume := default
  deriving DecidableEq, Repr, Inhabited

/-- What `g.ai` / `g.ao` point to: nothing, a PulseAudio object (the
`dynamic_cast` succeeds) or an object of another backend. -/
inductive AudioKind where
  | null
  | pulse
  | other
  deriving DecidableEq, Repr, Inhabited

/-- The settings read from `g.s`.  `doPositionalAudio` and `doEcho` hold the
results of the methods of those names, and `otherVolumeAdj` the value of
`static_cast<pa_volume_t>(PA_VOLUME_NORM * g.s.fOtherVolume)`. -/
structure Settings where
  qsPulseAudioInput : String
  qsPulseAudioOutput : String
  iOutputDelay : Int
  doPositionalAudio : Bool
  doEcho : Bool
  bEchoMulti : Bool
  bAttenuateOthers : Bool
  otherVolumeAdj : Nat
  deriving DecidableEq, Repr, Inhabited

/-- The part of the global `g` the backend reads. -/
structure Global where
  s : Settings
  ai : AudioKind
  ao : AudioKind
  bAttenuateOthers : Bool
  deriving DecidableEq, Repr, Inhabited

/-- State of `PulseAudioSystem`.  A stream pointer is `none` when it is `NULL`
and otherwise carries what `pa_stream_get_state` returns for it; a stream made
by `pa_stream_new` is `PA_STREAM_UNCONNECTED`, and connect and disconnect
requests are only logged, since the state they lead to is set by the server.
`issued` is the ghost log of outgoing calls. -/
structure PulseAudioSystem where
  bSourceDone : Bool
  bSinkDone : Bool
  bServerDone : Bool
  qsDefaultInput : String
  qsDefaultOutput : String
  iDelayCache : Int
  bPositionalCache : Bool
  bEchoMultiCache : Bool
  qsOutputCache : String
  qsInputCache : String
  qsEchoCache : String
  qhInput : QHash String String
  qhOutput : QHash String String
  qhEchoMap : QHash String String
  pasInput : Option pa_stream_state
  pasOutput : Option pa_stream_state
  pasSpeaker : Option pa_stream_state
  bRunning : Bool
  bAttenuating : Bool
  iRemainingOperations : Int
  qhVolumes : QHash Nat PulseAttenuation
  qlMatchedSinks : List Nat
  qhUnmatchedSinks : QHash String PulseAttenuation
  qhMissingSinks : QHash String PulseAttenuation
  issued : List Effect
  deriving DecidableEq, Repr, Inhabited

/-! ## Attenuating other applications -/

section Volume

variable (pa_cvolume_equal : pa_cvolume → pa_cvolume → Bool)
variable (pa_sw_cvolume_multiply_scalar : pa_cvolume → Nat → pa_cvolume)

/-- `PulseAudioSystem::volume_sink_input_list_callback`. -/
def volume_sink_input_list_callback (g : Global) (pas : PulseAudioSystem)
    (i : pa_sink_input_info) (eol : Int) : PulseAudioSystem :=
  if eol = 0 then
    if i.name ≠ mumble_sink_input then
      let patt : PulseAttenuation :=
        { index := i.index
          name := QLatin1String (some i.name)
          stream_restore_id := QLatin1String (pa_proplist_gets i.proplist "module-stream-restore.id")
          normal_volume := i.volume
          attenuated_volume := pa_sw_cvolume_multiply_scalar i.volume g.s.otherVolumeAdj }
      { pas with
        issued := pas.issued ++
          [Effect.pa_context_set_sink_input_volume i.index patt.attenuated_volume false]
        qhVolumes := QHash.insert pas.qhVolumes i.index patt }
    else pas
  else pas

/-- `PulseAudioSystem::restore_volume_success_callback`. -/
def restore_volume_success_callback (pas : PulseAudioSystem) : PulseAudioSystem :=
  let pas1 := { pas with iRemainingOperations := pas.iRemainingOperations - 1 }
  if pas1.bRunning = false ∧ pas1.iRemainingOperations = 0 then
    { pas1 with issued := pas1.issued ++ [Effect.qwcWait_wakeAll] }
  else pas1

/-- One iteration of the loop over `qhVolumes` that
`restore_sink_input_list_callback` runs at the end of the listing. -/
def restore_missing_step (pas : PulseAudioSystem) (it : Nat × PulseAttenuation) :
    PulseAudioSystem :=
  if it.1 ∈ pas.qlMatchedSinks then pas
  else
    match QHash.find? pas.qhUnmatchedSinks it.2.stream_restore_id with
    | some active_sink =>
      if pa_cvolume_equal active_sink.normal_volume it.2.attenuated_volume then
        { pas with
          iRemainingOperations := pas.iRemainingOperations + 1
          issued := pas.issued ++
            [Effect.pa_context_set_sink_input_volume active_sink.index it.2.normal_volume true] }
      else pas
    | none =>
      { pas with qhMissingSinks := QHash.insert pas.qhMissingSinks it.2.stream_restore_id it.2 }

/-- `PulseAudioSystem::restore_sink_input_list_callback`. -/
def restore_sink_input_list_callback (pas : PulseAudioSystem)
    (i : pa_sink_input_info) (eol : Int) : PulseAudioSystem :=
  if eol = 0 then
    match QHash.find? pas.qhVolumes i.index with
    | some tracked =>
      if pa_cvolume_equal i.volume tracked.attenuated_volume then
        { pas with
          qlMatchedSinks := pas.qlMatchedSinks ++ [i.index]
          iRemainingOperations := pas.iRemainingOperations + 1
          issued := pas.issued ++
            [Effect.pa_context_set_sink_input_volume i.index tracked.normal_volume true] }
      else pas
    | none =>
      let restore_id := QLatin1String (pa_proplist_gets i.proplist "module-stream-restore.id")
      let patt : PulseAttenuation := { index := i.index, normal_volume := i.volume }
      { pas with qhUnmatchedSinks := QHash.insert pas.qhUnmatchedSinks restore_id patt }
  else if eol < 0 then pas
  else
    let pas1 := pas.qhVolumes.foldl (restore_missing_step pa_cvolume_equal) pas
    let pas2 := { pas1 with qlMatchedSinks := [], qhUnmatchedSinks := [], qhVolumes := [] }
    let pas3 :=
      if QHash.count pas2.qhMissingSinks > 0 then
        { pas2 with
          iRemainingOperations := pas2.iRemainingOperations + 1
          issued := pas2.issued ++ [Effect.pa_ext_stream_restore_read] }
      else pas2
    restore_volume_success_callback pas3

/-- `PulseAudioSystem::stream_restore_read_callback`. -/
def stream_restore_read_callback (pas : PulseAudioSystem)
    (i : pa_ext_stream_restore_info) (eol : Int) : PulseAudioSystem :=
  if eol = 0 then
    let name := QLatin1String (some i.name)
    match QHash.find? pas.qhMissingSinks name with
    | some missing =>
      let pas1 :=
        if pa_cvolume_equal missing.attenuated_volume i.volume then
          { pas with
            iRemainingOperations := pas.iRemainingOperations + 1
            issued := pas.issued ++
              [Effect.pa_ext_stream_restore_write { i with volume := missing.normal_volume }] }
        else pas
      { pas1 with qhMissingSinks := QHash.remove pas1.qhMissingSinks name }
    | none => pas
  else if eol < 0 then { pas with qhMissingSinks := [] }
  else
    let pas1 :=
      if QHash.count pas.qhMissingSinks > 0 then { pas with qhMissingSinks := [] } else pas
    restore_volume_success_callback pas1

/-- `PulseAudioSystem::setVolumes`. -/
def setVolumes (pas : PulseAudioSystem) : PulseAudioSystem :=
  if pas.bAttenuating then
    if QHash.count pas.qhVolumes = 0 then
      { pas with issued := pas.issued ++ [Effect.pa_context_get_sink_input_info_list false] }
    else pas
  else
    { pas with
      iRemainingOperations := pas.iRemainingOperations + 1
      issued := pas.issued ++ [Effect.pa_context_get_sink_input_info_list true] }

end Volume

/-- The first part of `PulseAudioSystem::~PulseAudioSystem`, up to the point
where the main thread starts waiting on `qwcWait`. -/
def PulseAudioSystem_destructor (pas : PulseAudioSystem) : PulseAudioSystem :=
  let pas1 := { pas with bRunning := false }
  if pas1.bAttenuating then setVolumes { pas1 with bAttenuating := false } else pas1

/-! ## Device lists -/

/-- `audioDevice` is `QPair<QString, QVariant>`: the description shown to the
user first, the device name second. -/
abbrev audioDevice := String × String

/-- `qSort` on a `QStringList`: ascending order (the order of `QString` is
rendered by the order of `String`). -/
def qSort (l : List String) : List String := l.insertionSort (fun a b => a ≤ b)

/-- `QList::removeAll`. -/
def QList_removeAll (l : List String) (c : String) : List String :=
  l.filter (fun x => !decide (x = c))

/-- `PulseAudioInputRegistrar::getDeviceChoices`. -/
def PulseAudioInputRegistrar.getDeviceChoices (g : Global) (pasys : PulseAudioSystem) :
    List audioDevice :=
  let qlInputDevs := qSort (QHash.keys pasys.qhInput)
  let qlInputDevs :=
    if g.s.qsPulseAudioInput ∈ qlInputDevs then
      g.s.qsPulseAudioInput :: QList_removeAll qlInputDevs g.s.qsPulseAudioInput
    else qlInputDevs
  qlInputDevs.map (fun dev => (QHash.value pasys.qhInput dev, dev))

/-- `PulseAudioOutputRegistrar::getDeviceChoices`. -/
def PulseAudioOutputRegistrar.getDeviceChoices (g : Global) (pasys : PulseAudioSystem) :
    List audioDevice :=
  let qlOutputDevs := qSort (QHash.keys pasys.qhOutput)
  let qlOutputDevs :=
    if g.s.qsPulseAudioOutput ∈ qlOutputDevs then
      g.s.qsPulseAudioOutput :: QList_removeAll qlOutputDevs g.s.qsPulseAudioOutput
    else qlOutputDevs
  qlOutputDevs.map (fun dev => (QHash.value pasys.qhOutput dev, dev))

/-! ## Stream control -/

/-- The fields of `pa_sink_info` that `sink_callback` stores in the maps used
below (the sample specification and channel map are not tracked). -/
structure pa_sink_info where
  name : String
  description : String
  monitor_source_name : String
  deriving DecidableEq, Repr, Inhabited

/-- The call `api->defer_enable(pade, b)`. -/
def defer_enable (pas : PulseAudioSystem) (b : Bool) : PulseAudioSystem :=
  { pas with issued := pas.issued ++ [Effect.defer_enable b] }

/-- `PulseAudioSystem::wakeup`. -/
def wakeup (pas : PulseAudioSystem) : PulseAudioSystem := defer_enable pas true

/-- `PulseAudioSystem::sink_callback`; `i = none` is the null pointer. -/
def sink_callback (pas : PulseAudioSystem) (i : Option pa_sink_info) (eol : Int) :
    PulseAudioSystem :=
  match i with
  | none => wakeup { pas with bSinkDone := true }
  | some info =>
    if eol ≠ 0 then wakeup { pas with bSinkDone := true }
    else
      let name := QLatin1String (some info.name)
      { pas with
        qhOutput := QHash.insert pas.qhOutput name (QLatin1String (some info.description))
        qhEchoMap := QHash.insert pas.qhEchoMap name
          (QLatin1String (some info.monitor_source_name)) }

/-- The output device in effect: the configured one, or the server default
when none is configured. -/
def effectiveOutput (g : Global) (pas : PulseAudioSystem) : String :=
  if g.s.qsPulseAudioOutput = "" then pas.qsDefaultOutput else g.s.qsPulseAudioOutput

/-- The input device in effect. -/
def effectiveInput (g : Global) (pas : PulseAudioSystem) : String :=
  if g.s.qsPulseAudioInput = "" then pas.qsDefaultInput else g.s.qsPulseAudioInput

/-- The state used for a stream pointer: `PA_STREAM_TERMINATED` for `NULL`. -/
def streamState (p : Option pa_stream_state) : pa_stream_state :=
  match p with
  | some st => st
  | none => pa_stream_state.PA_STREAM_TERMINATED

/-- The `if (raw_ao)` block of `eventCallback`.  Sample specifications and
buffer attributes passed to libpulse are not tracked. -/
def eventCallback_output (g : Global) (pas : PulseAudioSystem) : PulseAudioSystem :=
  if g.ao = AudioKind.null then pas
  else
    let odev := effectiveOutput g pas
    let ost := streamState pas.pasOutput
    let pao : Bool := decide (g.ao = AudioKind.pulse)
    let r : PulseAudioSystem × Bool × Bool :=
      if pao = false ∧ ost = pa_stream_state.PA_STREAM_READY then (pas, true, false)
      else if pao then
        match ost with
        | pa_stream_state.PA_STREAM_TERMINATED =>
          let pas1 :=
            if pas.pasOutput.isSome then
              { pas with issued := pas.issued ++ [Effect.pa_stream_unref StreamRole.pasOutput] }
            else pas
          ({ pas1 with
             pasOutput := some pa_stream_state.PA_STREAM_UNCONNECTED
             issued := pas1.issued ++
               [Effect.pa_stream_new StreamRole.pasOutput mumble_sink_input] }, false, true)
        | pa_stream_state.PA_STREAM_UNCONNECTED => (pas, false, true)
        | pa_stream_state.PA_STREAM_READY =>
          if g.s.iOutputDelay ≠ pas.iDelayCache then (pas, true, false)
          else if g.s.doPositionalAudio ≠ pas.bPositionalCache then (pas, true, false)
          else if odev ≠ pas.qsOutputCache then (pas, true, false)
          else (pas, false, false)
        | _ => (pas, false, false)
      else (pas, false, false)
    let pas2 := r.1
    let do_stop := r.2.1
    let do_start := r.2.2
    if do_stop then
      { pas2 with issued := pas2.issued ++ [Effect.pa_stream_disconnect StreamRole.pasOutput] }
    else if do_start then
      { pas2 with
        iDelayCache := g.s.iOutputDelay
        bPositionalCache := g.s.doPositionalAudio
        qsOutputCache := odev
        issued := pas2.issued ++ [Effect.pa_stream_connect_playback StreamRole.pasOutput odev] }
    else pas2

/-- The first `if (raw_ai)` block of `eventCallback` (the capture stream). -/
def eventCallback_input (g : Global) (pas : PulseAudioSystem) : PulseAudioSystem :=
  if g.ai = AudioKind.null then pas
  else
    let idev := effectiveInput g pas
    let ist := streamState pas.pasInput
    let pai : Bool := decide (g.ai = AudioKind.pulse)
    let r : PulseAudioSystem × Bool × Bool :=
      if pai = false ∧ ist = pa_stream_state.PA_STREAM_READY then (pas, true, false)
      else if pai then
        match ist with
        | pa_stream_state.PA_STREAM_TERMINATED =>
          let pas1 :=
            if pas.pasInput.isSome then
              { pas with issued := pas.issued ++ [Effect.pa_stream_unref StreamRole.pasInput] }
            else pas
          ({ pas1 with
             pasInput := some pa_stream_state.PA_STREAM_UNCONNECTED
             issued := pas1.issued ++ [Effect.pa_stream_new StreamRole.pasInput "Microphone"] },
           false, true)
        | pa_stream_state.PA_STREAM_UNCONNECTED => (pas, false, true)
        | pa_stream_state.PA_STREAM_READY =>
          if idev ≠ pas.qsInputCache then (pas, true, false) else (pas, false, false)
        | _ => (pas, false, false)
      else (pas, false, false)
    let pas2 := r.1
    let do_stop := r.2.1
    let do_start := r.2.2
    if do_stop then
      { pas2 with issued := pas2.issued ++ [Effect.pa_stream_disconnect StreamRole.pasInput] }
    else if do_start then
      { pas2 with
        qsInputCache := idev
        issued := pas2.issued ++ [Effect.pa_stream_connect_record StreamRole.pasInput idev] }
    else pas2

/-- The second `if (raw_ai)` block of `eventCallback` (the echo stream). -/
def eventCallback_echo (g : Global) (pas : PulseAudioSystem) : PulseAudioSystem :=
  if g.ai = AudioKind.null then pas
  else
    let odev := effectiveOutput g pas
    let edev : String := QHash.value pas.qhEchoMap odev
    let est := streamState pas.pasSpeaker
    let pai : Bool := decide (g.ai = AudioKind.pulse)
    let r : PulseAudioSystem × Bool × Bool :=
      if (pai = false ∨ g.s.doEcho = false) ∧ est = pa_stream_state.PA_STREAM_READY then
        (pas, true, false)
      else if pai = true ∧ g.s.doEcho = true then
        match est with
        | pa_stream_state.PA_STREAM_TERMINATED =>
          let pas1 :=
            if pas.pasSpeaker.isSome then
              { pas with issued := pas.issued ++ [Effect.pa_stream_unref StreamRole.pasSpeaker] }
            else pas
          ({ pas1 with
             pasSpeaker := some pa_stream_state.PA_STREAM_UNCONNECTED
             issued := pas1.issued ++ [Effect.pa_stream_new StreamRole.pasSpeaker mumble_echo] },
           false, true)
        | pa_stream_state.PA_STREAM_UNCONNECTED => (pas, false, true)
        | pa_stream_state.PA_STREAM_READY =>
          if g.s.bEchoMulti ≠ pas.bEchoMultiCache then (pas, true, false)
          else if edev ≠ pas.qsEchoCache then (pas, true, false)
          else (pas, false, false)
        | _ => (pas, false, false)
      else (pas, false, false)
    let pas2 := r.1
    let do_stop := r.2.1
    let do_start := r.2.2
    if do_stop then
      { pas2 with issued := pas2.issued ++ [Effect.pa_stream_disconnect StreamRole.pasSpeaker] }
    else if do_start then
      { pas2 with
        bEchoMultiCache := g.s.bEchoMulti
        qsEchoCache := edev
        issued := pas2.issued ++ [Effect.pa_stream_connect_record StreamRole.pasSpeaker edev] }
    else pas2

/-- `PulseAudioSystem::eventCallback`. -/
def eventCallback (g : Global) (pas : PulseAudioSystem) : PulseAudioSystem :=
  let pas0 := defer_enable pas false
  if pas0.bSourceDone = false ∨ pas0.bSinkDone = false ∨ pas0.bServerDone = false then pas0
  else eventCallback_echo g (eventCallback_input g (eventCallback_output g pas0))

/-! ## Playback requests and subscription events -/

/-- `PulseAudioSystem::query`.  `tr` is Qt's translation of a source string; the
sample-specification and channel maps are not tracked. -/
def query (tr : String → String) (pas : PulseAudioSystem) : PulseAudioSystem :=
  wakeup
    { pas with
      bSourceDone := false
      bSinkDone := false
      bServerDone := false
      qhInput := QHash.insert [] "" (tr "Default Input")
      qhOutput := QHash.insert [] "" (tr "Default Output")
      qhEchoMap := []
      issued := pas.issued ++
        [Effect.pa_context_get_server_info, Effect.pa_context_get_sink_info_list,
         Effect.pa_context_get_source_info_list] }

/-- The libpulse constants `subscribe_callback` compares against; they are
declared in libpulse's headers, not in the repository. -/
structure pa_subscription_consts where
  PA_SUBSCRIPTION_EVENT_TYPE_MASK : Nat
  PA_SUBSCRIPTION_EVENT_NEW : Nat
  PA_SUBSCRIPTION_EVENT_REMOVE : Nat
  PA_SUBSCRIPTION_EVENT_FACILITY_MASK : Nat
  PA_SUBSCRIPTION_EVENT_SINK : Nat
  PA_SUBSCRIPTION_EVENT_SOURCE : Nat
  deriving DecidableEq, Repr, Inhabited

/-- `PulseAudioSystem::subscribe_callback`; `evt` is the event value and `&` on
it is bitwise and. -/
def subscribe_callback (c : pa_subscription_consts) (tr : String → String)
    (pas : PulseAudioSystem) (evt : Nat) : PulseAudioSystem :=
  if evt &&& c.PA_SUBSCRIPTION_EVENT_TYPE_MASK = c.PA_SUBSCRIPTION_EVENT_NEW ∨
      evt &&& c.PA_SUBSCRIPTION_EVENT_TYPE_MASK = c.PA_SUBSCRIPTION_EVENT_REMOVE then
    if evt &&& c.PA_SUBSCRIPTION_EVENT_FACILITY_MASK = c.PA_SUBSCRIPTION_EVENT_SINK ∨
        evt &&& c.PA_SUBSCRIPTION_EVENT_FACILITY_MASK = c.PA_SUBSCRIPTION_EVENT_SOURCE then
      query tr pas
    else pas
  else pas

/-- `PulseAudioSystem::write_callback`, from the point of view of the system:
`bytes` is the number of bytes requested, `iSampleSize` is `pao->iSampleSize`
as read after the mixer was (re)initialised, and `mix samples` stands for
`pao->mix(buffer, samples)`: its result and the contents it leaves in the
buffer.  `samples` and the length written are `unsigned int`. -/
def write_callback (g : Global) (pas : PulseAudioSystem) (bytes : Nat) (iSampleSize : Nat)
    (mix : Nat → Bool × List Nat) : PulseAudioSystem :=
  if g.ao ≠ AudioKind.pulse then
    wakeup
      { pas with
        issued := pas.issued ++
          [Effect.pa_stream_write StreamRole.pasOutput (List.replicate bytes 0)] }
  else
    let samples := (bytes / iSampleSize) % 4294967296
    let oldAttenuation := pas.bAttenuating
    let mixed := mix samples
    let buffer : List Nat := if mixed.1 then mixed.2 else List.replicate bytes 0
    let pas1 : PulseAudioSystem :=
      if mixed.1 then { pas with bAttenuating := g.bAttenuateOthers || g.s.bAttenuateOthers }
      else { pas with bAttenuating := g.bAttenuateOthers }
    let pas2 : PulseAudioSystem :=
      if oldAttenuation ≠ pas1.bAttenuating then
        setVolumes { pas1 with issued := pas1.issued ++ [Effect.setVolumes_called] }
      else pas1
    { pas2 with
      issued := pas2.issued ++
        [Effect.pa_stream_write StreamRole.pasOutput
          (buffer.take ((iSampleSize * samples) % 4294967296))] }

/-! ## Observing what a call does -/

/-- The outgoing calls made while `f` runs from state `pas`: what `f` appended
to the log. -/
def issuedBy (f : PulseAudioSystem → PulseAudioSystem) (pas : PulseAudioSystem) : List Effect :=
  (f pas).issued.drop pas.issued.length

/-- Whether an effect is a `pa_context_set_sink_input_volume` on sink input
`idx`. -/
def Effect.setsVolumeOf (idx : Nat) : Effect → Bool
  | Effect.pa_context_set_sink_input_volume j _ _ => decide (j = idx)
  | _ => false

/-- The stream an effect acts on, for the calls that act on a stream. -/
def Effect.stream : Effect → Option StreamRole
  | Effect.pa_stream_unref s => some s
  | Effect.pa_stream_new s _ => some s
  | Effect.pa_stream_disconnect s => some s
  | Effect.pa_stream_connect_playback s _ => some s
  | Effect.pa_stream_connect_record s _ => some s
  | Effect.pa_stream_write s _ => some s
  | _ => none

/-! ## Whole listings -/

section Listings

variable (pa_cvolume_equal : pa_cvolume → pa_cvolume → Bool)
variable (pa_sw_cvolume_multiply_scalar : pa_cvolume → Nat → pa_cvolume)

/-- The entries of a sink-input listing delivered one by one (`eol = 0`) to
`volume_sink_input_list_callback`. -/
def deliver_volume_entries (g : Global) (pas : PulseAudioSystem)
    (entries : List pa_sink_input_info) : PulseAudioSystem :=
  entries.foldl
    (fun s i => volume_sink_input_list_callback pa_sw_cvolume_multiply_scalar g s i 0) pas

/-- The entries of a sink-input listing delivered one by one (`eol = 0`) to
`restore_sink_input_list_callback`. -/
def deliver_restore_entries (pas : PulseAudioSystem) (entries : List pa_sink_input_info) :
    PulseAudioSystem :=
  entries.foldl (fun s i => restore_sink_input_list_callback pa_cvolume_equal s i 0) pas

/-- A whole listing delivered to `restore_sink_input_list_callback`: the entries,
then the terminator `eol` (which comes with a null entry). -/
def deliver_restore_listing (pas : PulseAudioSystem) (entries : List pa_sink_input_info)
    (eol : Int) : PulseAudioSystem :=
  restore_sink_input_list_callback pa_cvolume_equal
    (deliver_restore_entries pa_cvolume_equal pas entries) default eol

end Listings

/-! ## Deliveries from the sound server and outstanding requests -/

/-- The steps that touch the volume bookkeeping.  `setVolumes b` is a caller
assigning `bAttenuating = b` and calling `setVolumes()` (as `write_callback`
and the destructor do); `shutdown` is the beginning of the destructor; the
others are deliveries of the callback of the same name, `volume_success` being
`restore_volume_success_callback` invoked by libpulse for a completed
operation. -/
inductive Event where
  | setVolumes (attenuate : Bool)
  | shutdown
  | volume_list (g : Global) (i : pa_sink_input_info) (eol : Int)
  | restore_list (i : pa_sink_input_info) (eol : Int)
  | restore_read (i : pa_ext_stream_restore_info) (eol : Int)
  | volume_success
  deriving DecidableEq, Repr, Inhabited

/-- The state after an event. -/
def Event.apply (pa_cvolume_equal : pa_cvolume → pa_cvolume → Bool)
    (pa_sw_cvolume_multiply_scalar : pa_cvolume → Nat → pa_cvolume)
    (pas : PulseAudioSystem) : Event → PulseAudioSystem
  | Event.setVolumes b => Mumble.setVolumes { pas with bAttenuating := b }
  | Event.shutdown => PulseAudioSystem_destructor pas
  | Event.volume_list g i eol =>
    volume_sink_input_list_callback pa_sw_cvolume_multiply_scalar g pas i eol
  | Event.restore_list i eol => restore_sink_input_list_callback pa_cvolume_equal pas i eol
  | Event.restore_read i eol => stream_restore_read_callback pa_cvolume_equal pas i eol
  | Event.volume_success => restore_volume_success_callback pas

/-- A request for the sink-input listing answered by
`restore_sink_input_list_callback`. -/
def Effect.isRestoreListing : Effect → Bool
  | Effect.pa_context_get_sink_input_info_list true => true
  | _ => false

/-- A request to read the stream-restore database. -/
def Effect.isRestoreRead : Effect → Bool
  | Effect.pa_ext_stream_restore_read => true
  | _ => false

/-- An operation that was given `restore_volume_success_callback` as its
completion callback. -/
def Effect.hasSuccessCallback : Effect → Bool
  | Effect.pa_context_set_sink_input_volume _ _ true => true
  | Effect.pa_ext_stream_restore_write _ => true
  | _ => false

/-- The system together with ghost counters of what the server has already
answered: restore listings and database reads that were terminated (a delivery
with `eol ≠ 0`) and operations whose success callback has run. -/
structure World where
  pas : PulseAudioSystem
  listingsDone : Nat
  readsDone : Nat
  opsDone : Nat
  deriving DecidableEq, Repr, Inhabited

/-- Restore listings requested and not yet terminated. -/
def World.listingsOutstanding (w : World) : Nat :=
  w.pas.issued.countP Effect.isRestoreListing - w.listingsDone

/-- Stream-restore reads requested and not yet terminated. -/
def World.readsOutstanding (w : World) : Nat :=
  w.pas.issued.countP Effect.isRestoreRead - w.readsDone

/-- Set-volume and restore-write operations whose success callback has not yet
run. -/
def World.opsOutstanding (w : World) : Nat :=
  w.pas.issued.countP Effect.hasSuccessCallback - w.opsDone

/-- Everything the server still owes an answer for. -/
def World.outstanding (w : World) : Nat :=
  w.listingsOutstanding + w.readsOutstanding + w.opsOutstanding

/-- A world in which nothing is outstanding. -/
def World.init (pas : PulseAudioSystem) : World :=
  { pas := pas
    listingsDone := pas.issued.countP Effect.isRestoreListing
    readsDone := pas.issued.countP Effect.isRestoreRead
    opsDone := pas.issued.countP Effect.hasSuccessCallback }

/-- One step of the world.  The server only delivers what was requested: a
restore listing entry or terminator needs an outstanding restore listing, a
database entry or terminator an outstanding read, a success callback an
outstanding operation.  `none` means the event cannot happen. -/
def World.step (pa_cvolume_equal : pa_cvolume → pa_cvolume → Bool)
    (pa_sw_cvolume_multiply_scalar : pa_cvolume → Nat → pa_cvolume)
    (w : World) (e : Event) : Option World :=
  let pas' := Event.apply pa_cvolume_equal pa_sw_cvolume_multiply_scalar w.pas e
  match e with
  | Event.restore_list _ eol =>
    if 0 < w.listingsOutstanding then
      some { w with pas := pas', listingsDone := if eol = 0 then w.listingsDone
                                                 else w.listingsDone + 1 }
    else none
  | Event.restore_read _ eol =>
    if 0 < w.readsOutstanding then
      some { w with pas := pas', readsDone := if eol = 0 then w.readsDone
                                              else w.readsDone + 1 }
    else none
  | Event.volume_success =>
    if 0 < w.opsOutstanding then some { w with pas := pas', opsDone := w.opsDone + 1 }
    else none
  | _ => some { w with pas := pas' }

/-- Run a sequence of events; `none` if one of them cannot happen. -/
def World.run (pa_cvolume_equal : pa_cvolume → pa_cvolume → Bool)
    (pa_sw_cvolume_multiply_scalar : pa_cvolume → Nat → pa_cvolume) :
    World → List Event → Option World
  | w, [] => some w
  | w, e :: es =>
    match World.step pa_cvolume_equal pa_sw_cvolume_multiply_scalar w e with
    | some w' => World.run pa_cvolume_equal pa_sw_cvolume_multiply_scalar w' es
    | none => none

/-- Invariant of the bookkeeping: no more answers than requests, and the
counter covers every request that has not been answered. -/
def World.Balanced (w : World) : Prop :=
  w.listingsDone ≤ w.pas.issued.countP Effect.isRestoreListing ∧
  w.readsDone ≤ w.pas.issued.countP Effect.isRestoreRead ∧
  w.opsDone ≤ w.pas.issued.countP Effect.hasSuccessCallback ∧
  ((w.pas.issued.countP Effect.isRestoreListing + w.pas.issued.countP Effect.isRestoreRead
      + w.pas.issued.countP Effect.hasSuccessCallback : Nat) : Int)
    - ((w.listingsDone + w.readsDone + w.opsDone : Nat) : Int) ≤ w.pas.iRemainingOperations

instance (w : World) : Decidable w.Balanced := by
  unfold World.Balanced
  infer_instance

/-- A delivery that terminates a listing or a database read with an error
(`eol < 0`). -/
def Event.isErrorEnd : Event → Bool
  | Event.restore_list _ eol => decide (eol < 0)
  | Event.restore_read _ eol => decide (eol < 0)
  | _ => false

/-! ## Concrete states used to instantiate the results -/

/-- Settings with PulseAudio objects active on both sides, echo cancellation on
and an output delay of one block. -/
def exampleGlobal : Global :=
  { s := { qsPulseAudioInput := "", qsPulseAudioOutput := "", iOutputDelay := 1,
           doPositionalAudio := false, doEcho := true, bEchoMulti := false,
           bAttenuateOthers := true, otherVolumeAdj := 32768 }
    ai := AudioKind.pulse, ao := AudioKind.pulse, bAttenuateOthers := false }

/-- A system whose enumeration is complete, with a playback stream that is
`PA_STREAM_READY`, no capture stream and an echo stream that is
`PA_STREAM_READY`. -/
def exampleSystem : PulseAudioSystem :=
  { bSourceDone := true, bSinkDone := true, bServerDone := true
    qsDefaultInput := "mic", qsDefaultOutput := "speakers"
    iDelayCache := 0, bPositionalCache := false, bEchoMultiCache := false
    qsOutputCache := "speakers", qsInputCache := "", qsEchoCache := "speakers.monitor"
    qhInput := [("", "Default Input"), ("mic", "Microphone")]
    qhOutput := [("", "Default Output"), ("speakers", "Speakers")]
    qhEchoMap := [("speakers", "speakers.monitor")]
    pasInput := none
    pasOutput := some pa_stream_state.PA_STREAM_READY
    pasSpeaker := some pa_stream_state.PA_STREAM_READY
    bRunning := true, bAttenuating := false, iRemainingOperations := 0
    qhVolumes := [], qlMatchedSinks := [], qhUnmatchedSinks := [], qhMissingSinks := []
    issued := [] }

/-- A system that is attenuating one other application ("music", sink input
7, at half of its normal volume). -/
def exampleAttenuating : PulseAudioSystem :=
  { exampleSystem with
    bAttenuating := true
    qhVolumes := [(7, { index := 7, name := "music"
                        stream_restore_id := "sink-input-by-application-name:music"
                        normal_volume := { channels := 2, values := [65536, 65536] }
                        attenuated_volume := { channels := 2, values := [32768, 32768] } })] }

/-- Where `exampleAttenuating` ends up when it is shut down and the sink-input
listing is answered with an error. -/
def stuckAfterListingError : World :=
  { pas := { exampleAttenuating with
             bRunning := false, bAttenuating := false, iRemainingOperations := 1
             issued := [Effect.pa_context_get_sink_input_info_list true] }
    listingsDone := 1, readsDone := 0, opsDone := 0 }

/-- Where `exampleAttenuating` ends up when it is shut down, the listing no
longer contains the attenuated stream and the stream-restore read is answered
with an error. -/
def stuckAfterReadError : World :=
  { pas := { exampleAttenuating with
             bRunning := false, bAttenuating := false, iRemainingOperations := 1
             qhVolumes := []
             issued := [Effect.pa_context_get_sink_input_info_list true,
                        Effect.pa_ext_stream_restore_read] }
    listingsDone := 1, readsDone := 1, opsDone := 0 }

/-- A two-channel volume. -/
def exampleVolume (v : Nat) : pa_cvolume := { channels := 2, values := [v, v] }

/-- What the server lists while nothing is attenuated: a music player at full
volume and Mumble's own playback stream. -/
def exampleListing : List pa_sink_input_info :=
  [{ index := 7, name := "music", volume := exampleVolume 65536
     proplist := [("module-stream-restore.id", "sink-input-by-application-name:music")] },
   { index := 3, name := "Mumble Speakers", volume := exampleVolume 65536, proplist := [] }]

/-- The same streams once the music player has been attenuated to half. -/
def exampleListingAttenuated : List pa_sink_input_info :=
  [{ index := 7, name := "music", volume := exampleVolume 32768
     proplist := [("module-stream-restore.id", "sink-input-by-application-name:music")] },
   { index := 3, name := "Mumble Speakers", volume := exampleVolume 65536, proplist := [] }]

/-- A stand-in for `pa_sw_cvolume_multiply_scalar` in the examples: every
channel is scaled linearly, `PA_VOLUME_NORM` (65536) meaning "unchanged". -/
def exampleScale (v : pa_cvolume) (adj : Nat) : pa_cvolume :=
  { channels := v.channels, values := v.values.map (fun x => x * adj / 65536) }

/-- A stand-in for `pa_cvolume_equal` in the examples: structural equality. -/
def exampleEqual (a b : pa_cvolume) : Bool := decide (a = b)

/-- The values libpulse gives the subscription constants. -/
def examplePulseConsts : pa_subscription_consts :=
  { PA_SUBSCRIPTION_EVENT_TYPE_MASK := 0x30
    PA_SUBSCRIPTION_EVENT_NEW := 0x00
    PA_SUBSCRIPTION_EVENT_REMOVE := 0x20
    PA_SUBSCRIPTION_EVENT_FACILITY_MASK := 0x0F
    PA_SUBSCRIPTION_EVENT_SINK := 0
    PA_SUBSCRIPTION_EVENT_SOURCE := 1 }

/-- Where `exampleAttenuating` is after attenuation was switched off and the
restore listing came back without the attenuated stream: nothing on record any
more, and a stream-restore read issued for the missing stream and not yet
answered. -/
def exampleReadPending : PulseAudioSystem :=
  { exampleAttenuating with
    bAttenuating := false, iRemainingOperations := 1
    qhVolumes := []
    qhMissingSinks :=
      [("sink-input-by-application-name:music",
        { index := 7, name := "music"
          stream_restore_id := "sink-input-by-application-name:music"
          normal_volume := exampleVolume 65536
          attenuated_volume := exampleVolume 32768 })]
    issued := [Effect.pa_context_get_sink_input_info_list true,
               Effect.pa_ext_stream_restore_read] }

/-- Where shutting down `exampleAttenuating` stands once the restore listing
has reported the attenuated stream and ended: the reset of sink input 7 has been
issued and its success callback has not run yet. -/
def examplePendingReset : World :=
  { pas := { exampleAttenuating with
             bRunning := false, bAttenuating := false, iRemainingOperations := 1
             qhVolumes := []
             issued := [Effect.pa_context_get_sink_input_info_list true,
                        Effect.pa_context_set_sink_input_volume 7 (exampleVolume 65536) true] }
    listingsDone := 1, readsDone := 0, opsDone := 0 }

/-- The same shutdown after the success callback of the reset has run: the
waiting main thread has been woken. -/
def exampleWoken : World :=
  { pas := { examplePendingReset.pas with
             iRemainingOperations := 0
             issued := [Effect.pa_context_get_sink_input_info_list true,
                        Effect.pa_context_set_sink_input_volume 7 (exampleVolume 65536) true,
                        Effect.qwcWait_wakeAll] }
    listingsDone := 1, readsDone := 0, opsDone := 1 }

theorem QHash.find?_insert_self {K V : Type} [DecidableEq K] (h : QHash K V) (k : K) (v : V) :
    QHash.find? (QHash.insert h k v) k = some v := by
  induction h with
  | nil => simp [QHash.insert, QHash.find?]
  | cons p t ih =>
    obtain ⟨k', v'⟩ := p
    by_cases hk : k' = k
    · simp [QHash.insert, QHash.find?, hk]
    · simp [QHash.insert, QHash.find?, hk, ih]

theorem issuedBy_eq_of_append {f : PulseAudioSystem → PulseAudioSystem} {pas : PulseAudioSystem}
    {new : List Effect} (h : (f pas).issued = pas.issued ++ new) : issuedBy f pas = new := by
  simp [issuedBy, h]

/-! ## The program never attenuates itself -/

/-- C3: an entry delivered to `volume_sink_input_list_callback` with `eol = 0`
is attenuated and recorded exactly when its name is not "Mumble Speakers".  When
it is, one `pa_context_set_sink_input_volume` is issued on its index, the entry
stored under that index carries the reported index, name and volume, and the
volume set is the stored attenuated volume (the reported volume scaled by the
configured factor).  When the name is "Mumble Speakers",
or when `eol` is not zero, the state is unchanged and nothing is issued. -/
theorem volume_callback_skips_own_stream
    (mul : pa_cvolume → Nat → pa_cvolume) (g : Global) (pas : PulseAudioSystem)
    (i : pa_sink_input_info) (eol : Int) :
    (eol = 0 ∧ i.name ≠ "Mumble Speakers" →
      ∃ patt : PulseAttenuation,
        patt.index = i.index ∧ patt.name = i.name ∧ patt.normal_volume = i.volume ∧
        patt.attenuated_volume = mul i.volume g.s.otherVolumeAdj ∧
        (volume_sink_input_list_callback mul g pas i eol).qhVolumes
          = QHash.insert pas.qhVolumes i.index patt ∧
        QHash.find? (volume_sink_input_list_callback mul g pas i eol).qhVolumes i.index
          = some patt ∧
        issuedBy (fun s => volume_sink_input_list_callback mul g s i eol) pas
          = [Effect.pa_context_set_sink_input_volume i.index patt.attenuated_volume false]) ∧
    (eol = 0 ∧ i.name = "Mumble Speakers" →
      volume_sink_input_list_callback mul g pas i eol = pas ∧
      issuedBy (fun s => volume_sink_input_list_callback mul g s i eol) pas = []) ∧
    (eol ≠ 0 →
      volume_sink_input_list_callback mul g pas i eol = pas ∧
      issuedBy (fun s => volume_sink_input_list_callback mul g s i eol) pas = []) := by
  refine ⟨?_, ?_, ?_⟩
  · rintro ⟨h0, hname⟩
    have hname' : i.name ≠ mumble_sink_input := by simpa [mumble_sink_input] using hname
    refine ⟨{ index := i.index
              name := QLatin1String (some i.name)
              stream_restore_id :=
                QLatin1String (pa_proplist_gets i.proplist "module-stream-restore.id")
              normal_volume := i.volume
              attenuated_volume := mul i.volume g.s.otherVolumeAdj }, rfl, ?_, rfl, rfl, ?_, ?_, ?_⟩
    · simp [QLatin1String]
    · simp [volume_sink_input_list_callback, h0, hname']
    · simp [volume_sink_input_list_callback, h0, hname', QHash.find?_insert_self]
    · apply issuedBy_eq_of_append
      simp [volume_sink_input_list_callback, h0, hname']
  · rintro ⟨h0, hname⟩
    have hname' : i.name = mumble_sink_input := by simpa [mumble_sink_input] using hname
    simp [volume_sink_input_list_callback, h0, hname', issuedBy]
  · intro h0
    simp [volume_sink_input_list_callback, h0, issuedBy]

/-! ## Stream control: what each block of `eventCallback` issues -/

theorem eventCallback_output_append (g : Global) (pas : PulseAudioSystem) :
    (eventCallback_output g pas).issued = pas.issued ++ issuedBy (eventCallback_output g) pas := by
  unfold issuedBy eventCallback_output
  rcases hp : pas.pasOutput with _ | st
  · rcases hg : g.ao <;> simp [hp, hg, streamState] <;>
      (try split_ifs) <;> (try simp_all [streamState])
  · rcases hg : g.ao <;> cases st <;> simp [hp, hg, streamState] <;>
      (try split_ifs) <;> (try simp_all [streamState])

theorem eventCallback_input_append (g : Global) (pas : PulseAudioSystem) :
    (eventCallback_input g pas).issued = pas.issued ++ issuedBy (eventCallback_input g) pas := by
  unfold issuedBy eventCallback_input
  rcases hp : pas.pasInput with _ | st
  · rcases hg : g.ai <;> simp [hp, hg, streamState] <;>
      (try split_ifs) <;> (try simp_all [streamState])
  · rcases hg : g.ai <;> cases st <;> simp [hp, hg, streamState] <;>
      (try split_ifs) <;> (try simp_all [streamState])

theorem eventCallback_echo_append (g : Global) (pas : PulseAudioSystem) :
    (eventCallback_echo g pas).issued = pas.issued ++ issuedBy (eventCallback_echo g) pas := by
  unfold issuedBy eventCallback_echo
  rcases hp : pas.pasSpeaker with _ | st
  · rcases hg : g.ai <;> rcases he : g.s.doEcho <;> simp [hp, hg, he, streamState] <;>
      (try split_ifs) <;> (try simp_all [streamState])
  · rcases hg : g.ai <;> rcases he : g.s.doEcho <;> cases st <;> simp [hp, hg, he, streamState] <;>
      (try split_ifs) <;> (try simp_all [streamState])

theorem eventCallback_output_role (g : Global) (pas : PulseAudioSystem) :
    ∀ e ∈ issuedBy (eventCallback_output g) pas, e.stream = some StreamRole.pasOutput := by
  unfold issuedBy eventCallback_output
  rcases hp : pas.pasOutput with _ | st
  · rcases hg : g.ao <;> simp [hp, hg, streamState, Effect.stream] <;>
      (try split_ifs) <;> (try simp_all [Effect.stream])
  · rcases hg : g.ao <;> cases st <;> simp [hp, hg, streamState, Effect.stream] <;>
      (try split_ifs) <;> (try simp_all [Effect.stream])

theorem eventCallback_input_role (g : Global) (pas : PulseAudioSystem) :
    ∀ e ∈ issuedBy (eventCallback_input g) pas, e.stream = some StreamRole.pasInput := by
  unfold issuedBy eventCallback_input
  rcases hp : pas.pasInput with _ | st
  · rcases hg : g.ai <;> simp [hp, hg, streamState, Effect.stream] <;>
      (try split_ifs) <;> (try simp_all [Effect.stream])
  · rcases hg : g.ai <;> cases st <;> simp [hp, hg, streamState, Effect.stream] <;>
      (try split_ifs) <;> (try simp_all [Effect.stream])

theorem eventCallback_echo_role (g : Global) (pas : PulseAudioSystem) :
    ∀ e ∈ issuedBy (eventCallback_echo g) pas, e.stream = some StreamRole.pasSpeaker := by
  unfold issuedBy eventCallback_echo
  rcases hp : pas.pasSpeaker with _ | st
  · rcases hg : g.ai <;> rcases he : g.s.doEcho <;> simp [hp, hg, he, streamState, Effect.stream] <;>
      (try split_ifs) <;> (try simp_all [Effect.stream])
  · rcases hg : g.ai <;> rcases he : g.s.doEcho <;> cases st <;> simp [hp, hg, he, streamState, Effect.stream] <;>
      (try split_ifs) <;> (try simp_all [Effect.stream])

/-- What the playback block leaves alone. -/
theorem eventCallback_output_frame (g : Global) (pas : PulseAudioSystem) :
    (eventCallback_output g pas).pasInput = pas.pasInput ∧
    (eventCallback_output g pas).pasSpeaker = pas.pasSpeaker ∧
    (eventCallback_output g pas).qhEchoMap = pas.qhEchoMap ∧
    (eventCallback_output g pas).qsDefaultOutput = pas.qsDefaultOutput ∧
    (eventCallback_output g pas).qsDefaultInput = pas.qsDefaultInput ∧
    (eventCallback_output g pas).qsInputCache = pas.qsInputCache ∧
    (eventCallback_output g pas).bEchoMultiCache = pas.bEchoMultiCache ∧
    (eventCallback_output g pas).qsEchoCache = pas.qsEchoCache := by
  unfold eventCallback_output
  rcases hp : pas.pasOutput with _ | st
  · rcases hg : g.ao <;> simp [hp, hg, streamState] <;>
      (try split_ifs) <;> (try simp_all [streamState])
  · rcases hg : g.ao <;> cases st <;> simp [hp, hg, streamState] <;>
      (try split_ifs) <;> (try simp_all [streamState])

/-- What the capture block leaves alone. -/
theorem eventCallback_input_frame (g : Global) (pas : PulseAudioSystem) :
    (eventCallback_input g pas).pasSpeaker = pas.pasSpeaker ∧
    (eventCallback_input g pas).qhEchoMap = pas.qhEchoMap ∧
    (eventCallback_input g pas).qsDefaultOutput = pas.qsDefaultOutput ∧
    (eventCallback_input g pas).bEchoMultiCache = pas.bEchoMultiCache ∧
    (eventCallback_input g pas).qsEchoCache = pas.qsEchoCache ∧
    (eventCallback_input g pas).iDelayCache = pas.iDelayCache ∧
    (eventCallback_input g pas).bPositionalCache = pas.bPositionalCache ∧
    (eventCallback_input g pas).qsOutputCache = pas.qsOutputCache := by
  unfold eventCallback_input
  rcases hp : pas.pasInput with _ | st
  · rcases hg : g.ai <;> simp [hp, hg, streamState] <;>
      (try split_ifs) <;> (try simp_all [streamState])
  · rcases hg : g.ai <;> cases st <;> simp [hp, hg, streamState] <;>
      (try split_ifs) <;> (try simp_all [streamState])

/-- What the echo block leaves alone. -/
theorem eventCallback_echo_frame (g : Global) (pas : PulseAudioSystem) :
    (eventCallback_echo g pas).iDelayCache = pas.iDelayCache ∧
    (eventCallback_echo g pas).bPositionalCache = pas.bPositionalCache ∧
    (eventCallback_echo g pas).qsOutputCache = pas.qsOutputCache := by
  unfold eventCallback_echo
  rcases hp : pas.pasSpeaker with _ | st
  · rcases hg : g.ai <;> rcases he : g.s.doEcho <;> simp [hp, hg, he, streamState] <;>
      (try split_ifs) <;> (try simp_all [streamState])
  · rcases hg : g.ai <;> rcases he : g.s.doEcho <;> cases st <;> simp [hp, hg, he, streamState] <;>
      (try split_ifs) <;> (try simp_all [streamState])

theorem eventCallback_issued (g : Global) (pas : PulseAudioSystem)
    (hdone : pas.bSourceDone = true ∧ pas.bSinkDone = true ∧ pas.bServerDone = true) :
    issuedBy (eventCallback g) pas = Effect.defer_enable false ::
      (issuedBy (eventCallback_output g)
          (defer_enable pas false) ++
        issuedBy (eventCallback_input g) (eventCallback_output g
          (defer_enable pas false)) ++
        issuedBy (eventCallback_echo g) (eventCallback_input g (eventCallback_output g
          (defer_enable pas false)))) := by
  apply issuedBy_eq_of_append
  obtain ⟨h1, h2, h3⟩ := hdone
  simp only [eventCallback]
  split_ifs with hc
  · simp [h1, h2, h3, defer_enable] at hc
  · rw [eventCallback_echo_append, eventCallback_input_append, eventCallback_output_append]
    simp [defer_enable]

theorem mem_eventCallback_output (g : Global) (pas : PulseAudioSystem)
    (hdone : pas.bSourceDone = true ∧ pas.bSinkDone = true ∧ pas.bServerDone = true)
    (e : Effect) (he : e.stream = some StreamRole.pasOutput) :
    e ∈ issuedBy (eventCallback g) pas ↔
      e ∈ issuedBy (eventCallback_output g)
        (defer_enable pas false) := by
  rw [eventCallback_issued g pas hdone]
  constructor
  · intro h
    simp only [List.mem_cons, List.mem_append] at h
    rcases h with h | (h | h) | h
    · subst h; simp [Effect.stream] at he
    · exact h
    · have := eventCallback_input_role _ _ _ h; simp [he] at this
    · have := eventCallback_echo_role _ _ _ h; simp [he] at this
  · intro h
    simp only [List.mem_cons, List.mem_append]
    exact Or.inr (Or.inl (Or.inl h))

theorem mem_eventCallback_input (g : Global) (pas : PulseAudioSystem)
    (hdone : pas.bSourceDone = true ∧ pas.bSinkDone = true ∧ pas.bServerDone = true)
    (e : Effect) (he : e.stream = some StreamRole.pasInput) :
    e ∈ issuedBy (eventCallback g) pas ↔
      e ∈ issuedBy (eventCallback_input g) (eventCallback_output g
        (defer_enable pas false)) := by
  rw [eventCallback_issued g pas hdone]
  constructor
  · intro h
    simp only [List.mem_cons, List.mem_append] at h
    rcases h with h | (h | h) | h
    · subst h; simp [Effect.stream] at he
    · have := eventCallback_output_role _ _ _ h; simp [he] at this
    · exact h
    · have := eventCallback_echo_role _ _ _ h; simp [he] at this
  · intro h
    simp only [List.mem_cons, List.mem_append]
    exact Or.inr (Or.inl (Or.inr h))

theorem mem_eventCallback_echo (g : Global) (pas : PulseAudioSystem)
    (hdone : pas.bSourceDone = true ∧ pas.bSinkDone = true ∧ pas.bServerDone = true)
    (e : Effect) (he : e.stream = some StreamRole.pasSpeaker) :
    e ∈ issuedBy (eventCallback g) pas ↔
      e ∈ issuedBy (eventCallback_echo g) (eventCallback_input g (eventCallback_output g
        (defer_enable pas false))) := by
  rw [eventCallback_issued g pas hdone]
  constructor
  · intro h
    simp only [List.mem_cons, List.mem_append] at h
    rcases h with h | (h | h) | h
    · subst h; simp [Effect.stream] at he
    · have := eventCallback_output_role _ _ _ h; simp [he] at this
    · have := eventCallback_input_role _ _ _ h; simp [he] at this
    · exact h
  · intro h
    simp only [List.mem_cons, List.mem_append]
    exact Or.inr (Or.inr h)

theorem output_disconnect_iff_of_ready (g : Global) (pas : PulseAudioSystem)
    (hao : g.ao = AudioKind.pulse)
    (hst : pas.pasOutput = some pa_stream_state.PA_STREAM_READY) :
    Effect.pa_stream_disconnect StreamRole.pasOutput ∈ issuedBy (eventCallback_output g) pas ↔
      (g.s.iOutputDelay ≠ pas.iDelayCache ∨ g.s.doPositionalAudio ≠ pas.bPositionalCache ∨
        effectiveOutput g pas ≠ pas.qsOutputCache) := by
  unfold issuedBy eventCallback_output
  simp [hao, hst, streamState] <;>
    (try split_ifs) <;> (try simp_all [streamState])

theorem output_caches_of_ready (g : Global) (pas : PulseAudioSystem)
    (hao : g.ao = AudioKind.pulse)
    (hst : pas.pasOutput = some pa_stream_state.PA_STREAM_READY) :
    (eventCallback_output g pas).iDelayCache = pas.iDelayCache ∧
    (eventCallback_output g pas).bPositionalCache = pas.bPositionalCache ∧
    (eventCallback_output g pas).qsOutputCache = pas.qsOutputCache := by
  unfold eventCallback_output
  simp [hao, hst, streamState] <;> (try split_ifs) <;> (try simp_all [streamState])

theorem output_connect_iff (g : Global) (pas : PulseAudioSystem) (r : StreamRole) (dev : String) :
    Effect.pa_stream_connect_playback r dev ∈ issuedBy (eventCallback_output g) pas ↔
      r = StreamRole.pasOutput ∧ g.ao = AudioKind.pulse ∧ dev = effectiveOutput g pas ∧
        (pas.pasOutput = none ∨ pas.pasOutput = some pa_stream_state.PA_STREAM_TERMINATED ∨
          pas.pasOutput = some pa_stream_state.PA_STREAM_UNCONNECTED) := by
  unfold issuedBy eventCallback_output
  rcases hp : pas.pasOutput with _ | st
  · rcases hg : g.ao <;> simp [hp, hg, streamState] <;>
      (try split_ifs) <;> (try simp_all [streamState])
  · rcases hg : g.ao <;> cases st <;> simp [hp, hg, streamState] <;>
      (try split_ifs) <;> (try simp_all [streamState])

theorem output_new_iff (g : Global) (pas : PulseAudioSystem) (r : StreamRole) (name : String) :
    Effect.pa_stream_new r name ∈ issuedBy (eventCallback_output g) pas ↔
      r = StreamRole.pasOutput ∧ g.ao = AudioKind.pulse ∧ name = mumble_sink_input ∧
        (pas.pasOutput = none ∨ pas.pasOutput = some pa_stream_state.PA_STREAM_TERMINATED) := by
  unfold issuedBy eventCallback_output
  rcases hp : pas.pasOutput with _ | st
  · rcases hg : g.ao <;> simp [hp, hg, streamState] <;>
      (try split_ifs) <;> (try simp_all [streamState])
  · rcases hg : g.ao <;> cases st <;> simp [hp, hg, streamState] <;>
      (try split_ifs) <;> (try simp_all [streamState])

theorem output_new_before_connect (g : Global) (pas : PulseAudioSystem)
    (hao : g.ao = AudioKind.pulse)
    (hst : pas.pasOutput = none ∨ pas.pasOutput = some pa_stream_state.PA_STREAM_TERMINATED) :
    ∃ pre, issuedBy (eventCallback_output g) pas = pre ++
      [Effect.pa_stream_new StreamRole.pasOutput mumble_sink_input,
       Effect.pa_stream_connect_playback StreamRole.pasOutput (effectiveOutput g pas)] := by
  rcases hst with hst | hst
  · refine ⟨[], ?_⟩
    unfold issuedBy eventCallback_output
    simp [hao, hst, streamState]
  · refine ⟨[Effect.pa_stream_unref StreamRole.pasOutput], ?_⟩
    unfold issuedBy eventCallback_output
    simp [hao, hst, streamState]

theorem output_exclusive (g : Global) (pas : PulseAudioSystem)
    (h : Effect.pa_stream_disconnect StreamRole.pasOutput ∈ issuedBy (eventCallback_output g) pas)
    (dev : String) :
    Effect.pa_stream_connect_playback StreamRole.pasOutput dev ∉
        issuedBy (eventCallback_output g) pas ∧
      Effect.pa_stream_connect_record StreamRole.pasOutput dev ∉
        issuedBy (eventCallback_output g) pas := by
  revert h
  unfold issuedBy eventCallback_output
  rcases hp : pas.pasOutput with _ | st
  · rcases hg : g.ao <;> simp [hp, hg, streamState] <;>
      (try split_ifs) <;> (try simp_all [streamState])
  · rcases hg : g.ao <;> cases st <;> simp [hp, hg, streamState] <;>
      (try split_ifs) <;> (try simp_all [streamState])

theorem input_connect_iff (g : Global) (pas : PulseAudioSystem) (r : StreamRole) (dev : String) :
    Effect.pa_stream_connect_record r dev ∈ issuedBy (eventCallback_input g) pas ↔
      r = StreamRole.pasInput ∧ g.ai = AudioKind.pulse ∧ dev = effectiveInput g pas ∧
        (pas.pasInput = none ∨ pas.pasInput = some pa_stream_state.PA_STREAM_TERMINATED ∨
          pas.pasInput = some pa_stream_state.PA_STREAM_UNCONNECTED) := by
  unfold issuedBy eventCallback_input
  rcases hp : pas.pasInput with _ | st
  · rcases hg : g.ai <;> simp [hp, hg, streamState] <;>
      (try split_ifs) <;> (try simp_all [streamState])
  · rcases hg : g.ai <;> cases st <;> simp [hp, hg, streamState] <;>
      (try split_ifs) <;> (try simp_all [streamState])

theorem input_exclusive (g : Global) (pas : PulseAudioSystem)
    (h : Effect.pa_stream_disconnect StreamRole.pasInput ∈ issuedBy (eventCallback_input g) pas)
    (dev : String) :
    Effect.pa_stream_connect_playback StreamRole.pasInput dev ∉
        issuedBy (eventCallback_input g) pas ∧
      Effect.pa_stream_connect_record StreamRole.pasInput dev ∉
        issuedBy (eventCallback_input g) pas := by
  revert h
  unfold issuedBy eventCallback_input
  rcases hp : pas.pasInput with _ | st
  · rcases hg : g.ai <;> simp [hp, hg, streamState] <;>
      (try split_ifs) <;> (try simp_all [streamState])
  · rcases hg : g.ai <;> cases st <;> simp [hp, hg, streamState] <;>
      (try split_ifs) <;> (try simp_all [streamState])

theorem echo_connect_iff (g : Global) (pas : PulseAudioSystem) (r : StreamRole) (dev : String) :
    Effect.pa_stream_connect_record r dev ∈ issuedBy (eventCallback_echo g) pas ↔
      r = StreamRole.pasSpeaker ∧ g.ai = AudioKind.pulse ∧ g.s.doEcho = true ∧
        dev = QHash.value pas.qhEchoMap (effectiveOutput g pas) ∧
        (pas.pasSpeaker = none ∨ pas.pasSpeaker = some pa_stream_state.PA_STREAM_TERMINATED ∨
          pas.pasSpeaker = some pa_stream_state.PA_STREAM_UNCONNECTED) := by
  unfold issuedBy eventCallback_echo
  rcases hp : pas.pasSpeaker with _ | st
  · rcases hg : g.ai <;> rcases he : g.s.doEcho <;> simp [hp, hg, he, streamState] <;>
      (try split_ifs) <;> (try simp_all [streamState])
  · rcases hg : g.ai <;> rcases he : g.s.doEcho <;> cases st <;> simp [hp, hg, he, streamState] <;>
      (try split_ifs) <;> (try simp_all [streamState])

theorem echo_exclusive (g : Global) (pas : PulseAudioSystem)
    (h : Effect.pa_stream_disconnect StreamRole.pasSpeaker ∈ issuedBy (eventCallback_echo g) pas)
    (dev : String) :
    Effect.pa_stream_connect_playback StreamRole.pasSpeaker dev ∉
        issuedBy (eventCallback_echo g) pas ∧
      Effect.pa_stream_connect_record StreamRole.pasSpeaker dev ∉
        issuedBy (eventCallback_echo g) pas := by
  revert h
  unfold issuedBy eventCallback_echo
  rcases hp : pas.pasSpeaker with _ | st
  · rcases hg : g.ai <;> rcases he : g.s.doEcho <;> simp [hp, hg, he, streamState] <;>
      (try split_ifs) <;> (try simp_all [streamState])
  · rcases hg : g.ai <;> rcases he : g.s.doEcho <;> cases st <;> simp [hp, hg, he, streamState] <;>
      (try split_ifs) <;> (try simp_all [streamState])

theorem echo_disconnect_iff_of_ready (g : Global) (pas : PulseAudioSystem)
    (hai : g.ai ≠ AudioKind.null)
    (hst : pas.pasSpeaker = some pa_stream_state.PA_STREAM_READY) :
    Effect.pa_stream_disconnect StreamRole.pasSpeaker ∈ issuedBy (eventCallback_echo g) pas ↔
      (g.ai ≠ AudioKind.pulse ∨ g.s.doEcho = false ∨ g.s.bEchoMulti ≠ pas.bEchoMultiCache ∨
        QHash.value pas.qhEchoMap (effectiveOutput g pas) ≠ pas.qsEchoCache) := by
  unfold issuedBy eventCallback_echo
  rcases hg : g.ai <;> rcases he : g.s.doEcho <;> simp [hst, hg, he, streamState] <;>
    (try split_ifs) <;> (try simp_all [streamState])

theorem eventCallback_issued_not_done (g : Global) (pas : PulseAudioSystem)
    (h : ¬ (pas.bSourceDone = true ∧ pas.bSinkDone = true ∧ pas.bServerDone = true)) :
    issuedBy (eventCallback g) pas = [Effect.defer_enable false] := by
  apply issuedBy_eq_of_append
  simp only [eventCallback]
  split_ifs with hc
  · rfl
  · exfalso
    apply h
    simp only [not_or, Bool.not_eq_false] at hc
    exact hc

/-! ## Stream control: the claims about `eventCallback` -/

/-- C5: in `eventCallback` with the enumeration complete, the active output a
`PulseAudioOutput` and the playback stream `PA_STREAM_READY`, the playback
stream is disconnected exactly when `g.s.iOutputDelay` differs from
`iDelayCache`, or `g.s.doPositionalAudio()` differs from `bPositionalCache`, or
the effective output device (the configured one, or `qsDefaultOutput` when the
setting is empty) differs from `qsOutputCache`.  In that state the playback
stream is not connected and the three caches keep their values. -/
theorem playback_reconfigured_on_setting_change (g : Global) (pas : PulseAudioSystem)
    (hdone : pas.bSourceDone = true ∧ pas.bSinkDone = true ∧ pas.bServerDone = true)
    (hao : g.ao = AudioKind.pulse)
    (hready : pas.pasOutput = some pa_stream_state.PA_STREAM_READY) :
    (Effect.pa_stream_disconnect StreamRole.pasOutput ∈ issuedBy (eventCallback g) pas ↔
      (g.s.iOutputDelay ≠ pas.iDelayCache ∨ g.s.doPositionalAudio ≠ pas.bPositionalCache ∨
        (if g.s.qsPulseAudioOutput = "" then pas.qsDefaultOutput else g.s.qsPulseAudioOutput)
          ≠ pas.qsOutputCache)) ∧
    (∀ dev, Effect.pa_stream_connect_playback StreamRole.pasOutput dev ∉
      issuedBy (eventCallback g) pas) ∧
    (eventCallback g pas).iDelayCache = pas.iDelayCache ∧
    (eventCallback g pas).bPositionalCache = pas.bPositionalCache ∧
    (eventCallback g pas).qsOutputCache = pas.qsOutputCache := by
  have hready0 : (defer_enable pas false).pasOutput = some pa_stream_state.PA_STREAM_READY :=
    hready
  refine ⟨?_, ?_, ?_⟩
  · rw [mem_eventCallback_output g pas hdone (Effect.pa_stream_disconnect StreamRole.pasOutput) rfl,
      output_disconnect_iff_of_ready g _ hao hready0]
    simp [effectiveOutput, defer_enable]
  · intro dev h
    rw [mem_eventCallback_output g pas hdone
      (Effect.pa_stream_connect_playback StreamRole.pasOutput dev) rfl, output_connect_iff] at h
    obtain ⟨_, _, _, h | h | h⟩ := h <;> simp [hready, defer_enable] at h
  · obtain ⟨h1, h2, h3⟩ := hdone
    simp only [eventCallback]
    split_ifs with hc
    · simp [h1, h2, h3, defer_enable] at hc
    · obtain ⟨e1, e2, e3⟩ := eventCallback_echo_frame g (eventCallback_input g
        (eventCallback_output g (defer_enable pas false)))
      obtain ⟨_, _, _, _, _, i1, i2, i3⟩ := eventCallback_input_frame g
        (eventCallback_output g (defer_enable pas false))
      obtain ⟨o1, o2, o3⟩ := output_caches_of_ready g
        (defer_enable pas false) hao hready0
      rw [e1, e2, e3, i1, i2, i3, o1, o2, o3]
      exact ⟨rfl, rfl, rfl⟩

/-- Instance of C5: with an output delay setting of 1 and a cached delay of 0
the ready playback stream is disconnected. -/
theorem playback_reconfigured_on_setting_change_witness :
    (exampleSystem.bSourceDone = true ∧ exampleSystem.bSinkDone = true ∧
      exampleSystem.bServerDone = true) ∧
    exampleGlobal.ao = AudioKind.pulse ∧
    exampleSystem.pasOutput = some pa_stream_state.PA_STREAM_READY ∧
    Effect.pa_stream_disconnect StreamRole.pasOutput ∈
      issuedBy (eventCallback exampleGlobal) exampleSystem :=
  ⟨⟨rfl, rfl, rfl⟩, rfl, rfl,
    (playback_reconfigured_on_setting_change exampleGlobal exampleSystem ⟨rfl, rfl, rfl⟩ rfl
      rfl).1.mpr (Or.inl (by decide))⟩

/-- C6: in `eventCallback` with the enumeration complete, the playback stream
is connected exactly when the active output is a `PulseAudioOutput` and the
stream is absent, `PA_STREAM_TERMINATED` or `PA_STREAM_UNCONNECTED`; a new stream
object is created exactly when it is absent or terminated, and then right before
the connect.  The capture stream is connected exactly when the active input is
a `PulseAudioInput` and the stream is absent, terminated or unconnected.  In
every state, one pass never issues both a disconnect and a connect for the same
stream. -/
theorem streams_opened_when_not_running (g : Global) (pas : PulseAudioSystem) :
    (pas.bSourceDone = true ∧ pas.bSinkDone = true ∧ pas.bServerDone = true →
      (∀ dev, Effect.pa_stream_connect_playback StreamRole.pasOutput dev ∈
          issuedBy (eventCallback g) pas ↔
        g.ao = AudioKind.pulse ∧
        dev = (if g.s.qsPulseAudioOutput = "" then pas.qsDefaultOutput
               else g.s.qsPulseAudioOutput) ∧
        (pas.pasOutput = none ∨ pas.pasOutput = some pa_stream_state.PA_STREAM_TERMINATED ∨
          pas.pasOutput = some pa_stream_state.PA_STREAM_UNCONNECTED)) ∧
      (∀ name, Effect.pa_stream_new StreamRole.pasOutput name ∈
          issuedBy (eventCallback g) pas ↔
        g.ao = AudioKind.pulse ∧ name = "Mumble Speakers" ∧
        (pas.pasOutput = none ∨ pas.pasOutput = some pa_stream_state.PA_STREAM_TERMINATED)) ∧
      (g.ao = AudioKind.pulse →
        (pas.pasOutput = none ∨ pas.pasOutput = some pa_stream_state.PA_STREAM_TERMINATED) →
        ∃ pre post, issuedBy (eventCallback g) pas = pre ++
          Effect.pa_stream_new StreamRole.pasOutput "Mumble Speakers" ::
          Effect.pa_stream_connect_playback StreamRole.pasOutput
            (if g.s.qsPulseAudioOutput = "" then pas.qsDefaultOutput
             else g.s.qsPulseAudioOutput) :: post) ∧
      (∀ dev, Effect.pa_stream_connect_record StreamRole.pasInput dev ∈
          issuedBy (eventCallback g) pas ↔
        g.ai = AudioKind.pulse ∧
        dev = (if g.s.qsPulseAudioInput = "" then pas.qsDefaultInput
               else g.s.qsPulseAudioInput) ∧
        (pas.pasInput = none ∨ pas.pasInput = some pa_stream_state.PA_STREAM_TERMINATED ∨
          pas.pasInput = some pa_stream_state.PA_STREAM_UNCONNECTED))) ∧
    (∀ r, Effect.pa_stream_disconnect r ∈ issuedBy (eventCallback g) pas →
      ∀ dev, Effect.pa_stream_connect_playback r dev ∉ issuedBy (eventCallback g) pas ∧
        Effect.pa_stream_connect_record r dev ∉ issuedBy (eventCallback g) pas) := by
  constructor
  · intro hdone
    obtain ⟨f1, f2, f3, f4, f5, f6, f7, f8⟩ := eventCallback_output_frame g
      (defer_enable pas false)
    refine ⟨?_, ?_, ?_, ?_⟩
    · intro dev
      rw [mem_eventCallback_output g pas hdone
        (Effect.pa_stream_connect_playback StreamRole.pasOutput dev) rfl, output_connect_iff]
      simp [effectiveOutput, defer_enable]
    · intro name
      rw [mem_eventCallback_output g pas hdone
        (Effect.pa_stream_new StreamRole.pasOutput name) rfl, output_new_iff]
      simp [mumble_sink_input, defer_enable]
    · intro hao hst
      obtain ⟨pre, hpre⟩ := output_new_before_connect g
        (defer_enable pas false) hao hst
      rw [eventCallback_issued g pas hdone, hpre]
      generalize issuedBy (eventCallback_input g) _ = inp
      generalize issuedBy (eventCallback_echo g) _ = ech
      exact ⟨Effect.defer_enable false :: pre, inp ++ ech,
        by simp [effectiveOutput, mumble_sink_input, defer_enable]⟩
    · intro dev
      rw [mem_eventCallback_input g pas hdone
        (Effect.pa_stream_connect_record StreamRole.pasInput dev) rfl, input_connect_iff]
      simp only [effectiveInput, f1, f5]
      simp [defer_enable]
  · intro r hr dev
    by_cases hdone : pas.bSourceDone = true ∧ pas.bSinkDone = true ∧ pas.bServerDone = true
    · cases r
      · rw [mem_eventCallback_output g pas hdone
          (Effect.pa_stream_disconnect StreamRole.pasOutput) rfl] at hr
        rw [mem_eventCallback_output g pas hdone
            (Effect.pa_stream_connect_playback StreamRole.pasOutput dev) rfl,
          mem_eventCallback_output g pas hdone
            (Effect.pa_stream_connect_record StreamRole.pasOutput dev) rfl]
        exact output_exclusive g _ hr dev
      · rw [mem_eventCallback_input g pas hdone
          (Effect.pa_stream_disconnect StreamRole.pasInput) rfl] at hr
        rw [mem_eventCallback_input g pas hdone
            (Effect.pa_stream_connect_playback StreamRole.pasInput dev) rfl,
          mem_eventCallback_input g pas hdone
            (Effect.pa_stream_connect_record StreamRole.pasInput dev) rfl]
        exact input_exclusive g _ hr dev
      · rw [mem_eventCallback_echo g pas hdone
          (Effect.pa_stream_disconnect StreamRole.pasSpeaker) rfl] at hr
        rw [mem_eventCallback_echo g pas hdone
            (Effect.pa_stream_connect_playback StreamRole.pasSpeaker dev) rfl,
          mem_eventCallback_echo g pas hdone
            (Effect.pa_stream_connect_record StreamRole.pasSpeaker dev) rfl]
        exact echo_exclusive g _ hr dev
    · rw [eventCallback_issued_not_done g pas hdone] at hr
      simp at hr

/-- C7: in `eventCallback` with the enumeration complete and an audio input
present, the echo stream is connected only if the active input is a
`PulseAudioInput` and `g.s.doEcho()` holds (and exactly when, in addition, the
stream is absent, terminated or unconnected), and it is then connected to the
monitor source that `qhEchoMap` holds for the effective output device.  A
`PA_STREAM_READY` echo stream is disconnected exactly when the active input is
not a `PulseAudioInput`, or `g.s.doEcho()` is false, or `g.s.bEchoMulti` differs
from `bEchoMultiCache`, or that monitor source differs from `qsEchoCache`.
`sink_callback` is what records a sink's monitor source under the sink's
name. -/
theorem echo_follows_setting (g : Global) (pas : PulseAudioSystem)
    (hdone : pas.bSourceDone = true ∧ pas.bSinkDone = true ∧ pas.bServerDone = true)
    (hai : g.ai ≠ AudioKind.null) :
    (∀ dev, Effect.pa_stream_connect_record StreamRole.pasSpeaker dev ∈
        issuedBy (eventCallback g) pas ↔
      g.ai = AudioKind.pulse ∧ g.s.doEcho = true ∧
      dev = QHash.value pas.qhEchoMap
        (if g.s.qsPulseAudioOutput = "" then pas.qsDefaultOutput else g.s.qsPulseAudioOutput) ∧
      (pas.pasSpeaker = none ∨ pas.pasSpeaker = some pa_stream_state.PA_STREAM_TERMINATED ∨
        pas.pasSpeaker = some pa_stream_state.PA_STREAM_UNCONNECTED)) ∧
    (pas.pasSpeaker = some pa_stream_state.PA_STREAM_READY →
      (Effect.pa_stream_disconnect StreamRole.pasSpeaker ∈ issuedBy (eventCallback g) pas ↔
        (g.ai ≠ AudioKind.pulse ∨ g.s.doEcho = false ∨ g.s.bEchoMulti ≠ pas.bEchoMultiCache ∨
          QHash.value pas.qhEchoMap
            (if g.s.qsPulseAudioOutput = "" then pas.qsDefaultOutput
             else g.s.qsPulseAudioOutput) ≠ pas.qsEchoCache))) ∧
    (∀ info : pa_sink_info,
      QHash.value (sink_callback pas (some info) 0).qhEchoMap info.name
        = info.monitor_source_name) := by
  obtain ⟨f1, f2, f3, f4, f5, f6, f7, f8⟩ := eventCallback_output_frame g
    (defer_enable pas false)
  obtain ⟨i1, i2, i3, i4, i5, _, _, _⟩ := eventCallback_input_frame g
    (eventCallback_output g (defer_enable pas false))
  refine ⟨?_, ?_, ?_⟩
  · intro dev
    rw [mem_eventCallback_echo g pas hdone
      (Effect.pa_stream_connect_record StreamRole.pasSpeaker dev) rfl, echo_connect_iff]
    simp only [effectiveOutput, i1, i2, i3, f2, f3, f4]
    simp [defer_enable]
  · intro hst
    have hst2 : (eventCallback_input g (eventCallback_output g
        (defer_enable pas false))).pasSpeaker
        = some pa_stream_state.PA_STREAM_READY := by rw [i1, f2]; exact hst
    rw [mem_eventCallback_echo g pas hdone (Effect.pa_stream_disconnect StreamRole.pasSpeaker) rfl,
      echo_disconnect_iff_of_ready g _ hai hst2]
    simp only [effectiveOutput, i2, i3, i4, i5, f3, f4, f7, f8]
    simp [defer_enable]
  · intro info
    simp [sink_callback, QHash.value, QLatin1String, QHash.find?_insert_self, wakeup, defer_enable]

/-- Instance of C7: with echo cancellation on and the recorded monitor source
equal to the cached one, the ready echo stream is left connected. -/
theorem echo_follows_setting_witness :
    (exampleSystem.bSourceDone = true ∧ exampleSystem.bSinkDone = true ∧
      exampleSystem.bServerDone = true) ∧
    exampleGlobal.ai ≠ AudioKind.null ∧
    Effect.pa_stream_disconnect StreamRole.pasSpeaker ∉
      issuedBy (eventCallback exampleGlobal) exampleSystem :=
  ⟨⟨rfl, rfl, rfl⟩, by decide,
    fun h => absurd (((echo_follows_setting exampleGlobal exampleSystem ⟨rfl, rfl, rfl⟩
      (by decide)).2.1 rfl).mp h) (by decide)⟩

/-! ## Device lists -/

theorem QHash.find?_of_mem_keys {K V : Type} [DecidableEq K] (h : QHash K V) (k : K)
    (hk : k ∈ QHash.keys h) : ∃ v, QHash.find? h k = some v := by
  induction h with
  | nil => simp [QHash.keys] at hk
  | cons p t ih =>
    obtain ⟨k', v'⟩ := p
    by_cases hkk : k' = k
    · exact ⟨v', by simp [QHash.find?, hkk]⟩
    · have hk' : k ∈ QHash.keys t := by
        simp only [QHash.keys, List.map_cons, List.mem_cons] at hk
        rcases hk with hk | hk
        · exact absurd hk.symm hkk
        · exact hk
      obtain ⟨v, hv⟩ := ih hk'
      exact ⟨v, by simp [QHash.find?, hkk, hv]⟩

/-- The list both registrars build from a device map `h` and the configured
device `c`. -/
theorem deviceChoices_spec (h : QHash String String) (c : String)
    (hn : (QHash.keys h).Nodup) :
    (((if c ∈ qSort (QHash.keys h) then c :: QList_removeAll (qSort (QHash.keys h)) c
        else qSort (QHash.keys h)).map (fun dev => (QHash.value h dev, dev))).map
          Prod.snd).Perm (QHash.keys h) ∧
    (∀ p ∈ (if c ∈ qSort (QHash.keys h) then c :: QList_removeAll (qSort (QHash.keys h)) c
        else qSort (QHash.keys h)).map (fun dev => (QHash.value h dev, dev)),
      QHash.find? h p.2 = some p.1) ∧
    (c ∈ QHash.keys h →
      ∃ rest, ((if c ∈ qSort (QHash.keys h) then c :: QList_removeAll (qSort (QHash.keys h)) c
        else qSort (QHash.keys h)).map (fun dev => (QHash.value h dev, dev))).map Prod.snd
          = c :: rest ∧ rest.Sorted (fun a b => a < b)) ∧
    (c ∉ QHash.keys h →
      (((if c ∈ qSort (QHash.keys h) then c :: QList_removeAll (qSort (QHash.keys h)) c
        else qSort (QHash.keys h)).map (fun dev => (QHash.value h dev, dev))).map
          Prod.snd).Sorted (fun a b => a < b)) := by
  have hperm : (qSort (QHash.keys h)).Perm (QHash.keys h) := List.perm_insertionSort _ _
  have hnd : (qSort (QHash.keys h)).Nodup := hperm.nodup_iff.mpr hn
  have hsorted : (qSort (QHash.keys h)).Sorted (fun a b => a < b) :=
    (List.sorted_insertionSort (fun a b : String => a ≤ b) _).lt_of_le hnd
  have hmem : ∀ k, k ∈ qSort (QHash.keys h) ↔ k ∈ QHash.keys h := fun k => hperm.mem_iff
  have hsnd : ∀ l : List String,
      (l.map (fun dev => (QHash.value h dev, dev))).map Prod.snd = l := by
    intro l
    simp [List.map_map, Function.comp_def]
  have hfilter : QList_removeAll (qSort (QHash.keys h)) c = (qSort (QHash.keys h)).erase c := by
    rw [hnd.erase_eq_filter]
    unfold QList_removeAll
    congr 1
  have hrest : (QList_removeAll (qSort (QHash.keys h)) c).Sorted (fun a b => a < b) :=
    hsorted.filter _
  rw [hsnd]
  refine ⟨?_, ?_, ?_, ?_⟩
  · by_cases hc : c ∈ qSort (QHash.keys h)
    · rw [if_pos hc, hfilter]
      exact (List.perm_cons_erase hc).symm.trans hperm
    · rw [if_neg hc]
      exact hperm
  · intro p hp
    obtain ⟨dev, hdev, rfl⟩ := List.mem_map.mp hp
    have hdk : dev ∈ QHash.keys h := by
      by_cases hc : c ∈ qSort (QHash.keys h)
      · rw [if_pos hc] at hdev
        rcases List.mem_cons.mp hdev with rfl | hdev
        · exact (hmem _).mp hc
        · exact (hmem _).mp (List.mem_of_mem_filter hdev)
      · rw [if_neg hc] at hdev
        exact (hmem _).mp hdev
    obtain ⟨v, hv⟩ := QHash.find?_of_mem_keys h dev hdk
    simp [QHash.value, hv]
  · intro hc
    rw [if_pos ((hmem c).mpr hc)]
    exact ⟨_, rfl, hrest⟩
  · intro hc
    rw [if_neg (fun hc' => hc ((hmem c).mp hc'))]
    exact hsorted

/-- C4: for a device map without repeated keys, `getDeviceChoices` returns
exactly one entry per key of the map (`qhInput` for the input registrar,
`qhOutput` for the output registrar), each entry pairing the key with the
description the map holds for it.  When the configured device is a key it comes
first and the other keys follow in ascending order; otherwise all keys are in
ascending order. -/
theorem getDeviceChoices_lists_each_device_once (g : Global) (pasys : PulseAudioSystem)
    (hin : (QHash.keys pasys.qhInput).Nodup) (hout : (QHash.keys pasys.qhOutput).Nodup) :
    (((PulseAudioInputRegistrar.getDeviceChoices g pasys).map Prod.snd).Perm
        (QHash.keys pasys.qhInput) ∧
      (∀ p ∈ PulseAudioInputRegistrar.getDeviceChoices g pasys,
        QHash.find? pasys.qhInput p.2 = some p.1) ∧
      (g.s.qsPulseAudioInput ∈ QHash.keys pasys.qhInput →
        ∃ rest, (PulseAudioInputRegistrar.getDeviceChoices g pasys).map Prod.snd
          = g.s.qsPulseAudioInput :: rest ∧ rest.Sorted (fun a b => a < b)) ∧
      (g.s.qsPulseAudioInput ∉ QHash.keys pasys.qhInput →
        ((PulseAudioInputRegistrar.getDeviceChoices g pasys).map Prod.snd).Sorted
          (fun a b => a < b))) ∧
    (((PulseAudioOutputRegistrar.getDeviceChoices g pasys).map Prod.snd).Perm
        (QHash.keys pasys.qhOutput) ∧
      (∀ p ∈ PulseAudioOutputRegistrar.getDeviceChoices g pasys,
        QHash.find? pasys.qhOutput p.2 = some p.1) ∧
      (g.s.qsPulseAudioOutput ∈ QHash.keys pasys.qhOutput →
        ∃ rest, (PulseAudioOutputRegistrar.getDeviceChoices g pasys).map Prod.snd
          = g.s.qsPulseAudioOutput :: rest ∧ rest.Sorted (fun a b => a < b)) ∧
      (g.s.qsPulseAudioOutput ∉ QHash.keys pasys.qhOutput →
        ((PulseAudioOutputRegistrar.getDeviceChoices g pasys).map Prod.snd).Sorted
          (fun a b => a < b))) :=
  ⟨deviceChoices_spec pasys.qhInput g.s.qsPulseAudioInput hin,
   deviceChoices_spec pasys.qhOutput g.s.qsPulseAudioOutput hout⟩

/-- Instance of C4 on the two-device maps of `exampleSystem`, where no device is
configured (the setting is the empty string, which is the key of the default
device). -/
theorem getDeviceChoices_lists_each_device_once_witness :
    (QHash.keys exampleSystem.qhInput).Nodup ∧ (QHash.keys exampleSystem.qhOutput).Nodup ∧
    ((PulseAudioOutputRegistrar.getDeviceChoices exampleGlobal exampleSystem).map Prod.snd).Perm
      (QHash.keys exampleSystem.qhOutput) :=
  ⟨by decide, by decide,
    (getDeviceChoices_lists_each_device_once exampleGlobal exampleSystem (by decide)
      (by decide)).2.1⟩
/-! ## The restore pass: what each callback adds to the log -/

theorem restore_volume_success_callback_issued (pas : PulseAudioSystem) :
    (restore_volume_success_callback pas).issued = pas.issued ++
      (if pas.bRunning = false ∧ pas.iRemainingOperations - 1 = 0 then [Effect.qwcWait_wakeAll]
       else []) := by
  unfold restore_volume_success_callback
  simp only []
  split_ifs <;> simp

theorem restore_volume_success_callback_frame (pas : PulseAudioSystem) :
    (restore_volume_success_callback pas).iRemainingOperations = pas.iRemainingOperations - 1 ∧
    (restore_volume_success_callback pas).qhVolumes = pas.qhVolumes ∧
    (restore_volume_success_callback pas).qlMatchedSinks = pas.qlMatchedSinks ∧
    (restore_volume_success_callback pas).qhUnmatchedSinks = pas.qhUnmatchedSinks ∧
    (restore_volume_success_callback pas).qhMissingSinks = pas.qhMissingSinks ∧
    (restore_volume_success_callback pas).bRunning = pas.bRunning := by
  unfold restore_volume_success_callback
  simp only []
  split_ifs <;> simp

/-- The loop over `qhVolumes` at the end of the listing: it only appends
set-volume operations, one for each unmatched entry whose restore id belongs to
a stream of the listing that still reports the attenuated volume, and counts
each of them in `iRemainingOperations`. -/
theorem restore_missing_fold (eq : pa_cvolume → pa_cvolume → Bool)
    (H : List (Nat × PulseAttenuation)) (pas : PulseAudioSystem) :
    ∃ new : List Effect,
      (H.foldl (restore_missing_step eq) pas).issued = pas.issued ++ new ∧
      (H.foldl (restore_missing_step eq) pas).iRemainingOperations
        = pas.iRemainingOperations + new.length ∧
      (H.foldl (restore_missing_step eq) pas).qlMatchedSinks = pas.qlMatchedSinks ∧
      (H.foldl (restore_missing_step eq) pas).qhUnmatchedSinks = pas.qhUnmatchedSinks ∧
      (H.foldl (restore_missing_step eq) pas).bRunning = pas.bRunning ∧
      ∀ e ∈ new, ∃ it ∈ H, ∃ active : PulseAttenuation,
        it.1 ∉ pas.qlMatchedSinks ∧
        QHash.find? pas.qhUnmatchedSinks it.2.stream_restore_id = some active ∧
        eq active.normal_volume it.2.attenuated_volume = true ∧
        e = Effect.pa_context_set_sink_input_volume active.index it.2.normal_volume true := by
  induction H generalizing pas with
  | nil => exact ⟨[], by simp⟩
  | cons it t ih =>
    obtain ⟨new, h1, h2, h3, h4, h5, h6⟩ := ih (restore_missing_step eq pas it)
    simp only [List.foldl_cons]
    by_cases hm : it.1 ∈ pas.qlMatchedSinks
    · have hs : restore_missing_step eq pas it = pas := by simp [restore_missing_step, hm]
      rw [hs] at h1 h2 h3 h4 h5 h6 ⊢
      refine ⟨new, h1, h2, h3, h4, h5, ?_⟩
      intro e he
      obtain ⟨it', hit', rest⟩ := h6 e he
      exact ⟨it', List.mem_cons_of_mem _ hit', rest⟩
    · rcases hf : QHash.find? pas.qhUnmatchedSinks it.2.stream_restore_id with _ | active
      · have hs : restore_missing_step eq pas it =
            { pas with
              qhMissingSinks := QHash.insert pas.qhMissingSinks it.2.stream_restore_id it.2 } := by
          simp [restore_missing_step, hm, hf]
        rw [hs] at h1 h2 h3 h4 h5 h6 ⊢
        refine ⟨new, h1, h2, h3, h4, h5, ?_⟩
        intro e he
        obtain ⟨it', hit', rest⟩ := h6 e he
        exact ⟨it', List.mem_cons_of_mem _ hit', rest⟩
      · by_cases hv : eq active.normal_volume it.2.attenuated_volume = true
        · have hs : restore_missing_step eq pas it =
              { pas with
                iRemainingOperations := pas.iRemainingOperations + 1
                issued := pas.issued ++
                  [Effect.pa_context_set_sink_input_volume active.index it.2.normal_volume
                    true] } := by
            simp [restore_missing_step, hm, hf, hv]
          rw [hs] at h1 h2 h3 h4 h5 h6 ⊢
          refine ⟨Effect.pa_context_set_sink_input_volume active.index it.2.normal_volume true
            :: new, ?_, ?_, h3, h4, h5, ?_⟩
          · simpa using h1
          · simp only [List.length_cons] at h2 ⊢
            rw [h2]; push_cast; ring
          · intro e he
            rcases List.mem_cons.mp he with rfl | he
            · exact ⟨it, List.mem_cons_self _ _, active, hm, hf, hv, rfl⟩
            · obtain ⟨it', hit', rest⟩ := h6 e he
              exact ⟨it', List.mem_cons_of_mem _ hit', rest⟩
        · have hs : restore_missing_step eq pas it = pas := by
            simp [restore_missing_step, hm, hf, hv]
          rw [hs] at h1 h2 h3 h4 h5 h6 ⊢
          refine ⟨new, h1, h2, h3, h4, h5, ?_⟩
          intro e he
          obtain ⟨it', hit', rest⟩ := h6 e he
          exact ⟨it', List.mem_cons_of_mem _ hit', rest⟩

/-- `restore_volume_success_callback` decrements the counter and issues the
wake-up only when the counter reaches zero while shutting down. -/
theorem restore_volume_success_callback_summary (pas : PulseAudioSystem) :
    ∃ wk : List Effect,
      (restore_volume_success_callback pas).issued = pas.issued ++ wk ∧
      (restore_volume_success_callback pas).iRemainingOperations
        = pas.iRemainingOperations - 1 ∧
      (wk = [] ∨ (wk = [Effect.qwcWait_wakeAll] ∧
        (restore_volume_success_callback pas).iRemainingOperations = 0 ∧
        pas.bRunning = false)) ∧
      (restore_volume_success_callback pas).qhVolumes = pas.qhVolumes ∧
      (restore_volume_success_callback pas).qlMatchedSinks = pas.qlMatchedSinks ∧
      (restore_volume_success_callback pas).qhUnmatchedSinks = pas.qhUnmatchedSinks ∧
      (restore_volume_success_callback pas).qhMissingSinks = pas.qhMissingSinks ∧
      (restore_volume_success_callback pas).bRunning = pas.bRunning := by
  obtain ⟨f1, f2, f3, f4, f5, f6⟩ := restore_volume_success_callback_frame pas
  refine ⟨_, restore_volume_success_callback_issued pas, f1, ?_, f2, f3, f4, f5, f6⟩
  split_ifs with hc
  · exact Or.inr ⟨rfl, by rw [f1]; exact hc.2, hc.1⟩
  · exact Or.inl rfl

/-- A listing entry (`eol = 0`) adds at most one set-volume operation, on the
entry's own index, and only when the entry is tracked and still reports the
attenuated volume; `qhVolumes` is not touched. -/
theorem restore_list_entry (eq : pa_cvolume → pa_cvolume → Bool) (pas : PulseAudioSystem)
    (i : pa_sink_input_info) :
    ∃ new : List Effect,
      (restore_sink_input_list_callback eq pas i 0).issued = pas.issued ++ new ∧
      (restore_sink_input_list_callback eq pas i 0).iRemainingOperations
        = pas.iRemainingOperations + new.length ∧
      (restore_sink_input_list_callback eq pas i 0).qhVolumes = pas.qhVolumes ∧
      (restore_sink_input_list_callback eq pas i 0).qhMissingSinks = pas.qhMissingSinks ∧
      (restore_sink_input_list_callback eq pas i 0).bRunning = pas.bRunning ∧
      ∀ e ∈ new, ∃ tracked : PulseAttenuation,
        QHash.find? pas.qhVolumes i.index = some tracked ∧
        eq i.volume tracked.attenuated_volume = true ∧
        e = Effect.pa_context_set_sink_input_volume i.index tracked.normal_volume true := by
  rcases hf : QHash.find? pas.qhVolumes i.index with _ | tracked
  · exact ⟨[], by simp [restore_sink_input_list_callback, hf]⟩
  · by_cases hv : eq i.volume tracked.attenuated_volume = true
    · exact ⟨[Effect.pa_context_set_sink_input_volume i.index tracked.normal_volume true],
        by simp [restore_sink_input_list_callback, hf, hv]⟩
    · exact ⟨[], by simp [restore_sink_input_list_callback, hf, hv]⟩

/-- An error terminator (`eol < 0`) of the listing changes nothing. -/
theorem restore_list_error (eq : pa_cvolume → pa_cvolume → Bool) (pas : PulseAudioSystem)
    (i : pa_sink_input_info) (eol : Int) (h : eol < 0) :
    restore_sink_input_list_callback eq pas i eol = pas := by
  simp [restore_sink_input_list_callback, h, h.ne]

/-- The end of the listing (`eol > 0`): set-volume operations for re-opened
streams, then possibly one stream-restore read, then possibly the wake-up; the
three collections are cleared. -/
theorem restore_list_end (eq : pa_cvolume → pa_cvolume → Bool) (pas : PulseAudioSystem)
    (i : pa_sink_input_info) (eol : Int) (h : 0 < eol) :
    ∃ ops rd wk : List Effect,
      (restore_sink_input_list_callback eq pas i eol).issued = pas.issued ++ (ops ++ rd ++ wk) ∧
      (restore_sink_input_list_callback eq pas i eol).iRemainingOperations
        = pas.iRemainingOperations + ops.length + rd.length - 1 ∧
      (rd = [] ∨ rd = [Effect.pa_ext_stream_restore_read]) ∧
      (wk = [] ∨ (wk = [Effect.qwcWait_wakeAll] ∧
        (restore_sink_input_list_callback eq pas i eol).iRemainingOperations = 0 ∧
        pas.bRunning = false)) ∧
      (restore_sink_input_list_callback eq pas i eol).qhVolumes = [] ∧
      (restore_sink_input_list_callback eq pas i eol).qlMatchedSinks = [] ∧
      (restore_sink_input_list_callback eq pas i eol).qhUnmatchedSinks = [] ∧
      (restore_sink_input_list_callback eq pas i eol).bRunning = pas.bRunning ∧
      ∀ e ∈ ops, ∃ it ∈ pas.qhVolumes, ∃ active : PulseAttenuation,
        it.1 ∉ pas.qlMatchedSinks ∧
        QHash.find? pas.qhUnmatchedSinks it.2.stream_restore_id = some active ∧
        eq active.normal_volume it.2.attenuated_volume = true ∧
        e = Effect.pa_context_set_sink_input_volume active.index it.2.normal_volume true := by
  obtain ⟨ops, h1, h2, h3, h4, h5, h6⟩ := restore_missing_fold eq pas.qhVolumes pas
  have hne : eol ≠ 0 := h.ne'
  have hnl : ¬ eol < 0 := not_lt.mpr h.le
  simp only [restore_sink_input_list_callback, hne, hnl, if_false]
  by_cases hm : QHash.count
      (List.foldl (restore_missing_step eq) pas pas.qhVolumes).qhMissingSinks > 0
  · simp only [hm, if_true]
    obtain ⟨wk, w1, w2, w3, w4, w5, w6, _, w8⟩ := restore_volume_success_callback_summary
      { List.foldl (restore_missing_step eq) pas pas.qhVolumes with
        qlMatchedSinks := [], qhUnmatchedSinks := [], qhVolumes := []
        iRemainingOperations :=
          (List.foldl (restore_missing_step eq) pas pas.qhVolumes).iRemainingOperations + 1
        issued := (List.foldl (restore_missing_step eq) pas pas.qhVolumes).issued ++
          [Effect.pa_ext_stream_restore_read] }
    refine ⟨ops, [Effect.pa_ext_stream_restore_read], wk, ?_, ?_, Or.inr rfl, ?_, w4, w5, w6,
      w8.trans h5, h6⟩
    · rw [w1]; simp only [h1, List.append_assoc]
    · rw [w2]; simp [h2]
    · rcases w3 with w3 | ⟨w3, w3', w3''⟩
      · exact Or.inl w3
      · exact Or.inr ⟨w3, w3', h5.symm.trans w3''⟩
  · simp only [hm, if_false]
    obtain ⟨wk, w1, w2, w3, w4, w5, w6, _, w8⟩ := restore_volume_success_callback_summary
      { List.foldl (restore_missing_step eq) pas pas.qhVolumes with
        qlMatchedSinks := [], qhUnmatchedSinks := [], qhVolumes := [] }
    refine ⟨ops, [], wk, ?_, ?_, Or.inl rfl, ?_, w4, w5, w6, w8.trans h5, h6⟩
    · rw [w1]; simp only [h1, List.append_assoc, List.append_nil]
    · rw [w2]; simp [h2]
    · rcases w3 with w3 | ⟨w3, w3', w3''⟩
      · exact Or.inl w3
      · exact Or.inr ⟨w3, w3', h5.symm.trans w3''⟩

/-- A database entry (`eol = 0`) adds at most one restore-write. -/
theorem restore_read_entry (eq : pa_cvolume → pa_cvolume → Bool) (pas : PulseAudioSystem)
    (i : pa_ext_stream_restore_info) :
    ∃ new : List Effect,
      (stream_restore_read_callback eq pas i 0).issued = pas.issued ++ new ∧
      (stream_restore_read_callback eq pas i 0).iRemainingOperations
        = pas.iRemainingOperations + new.length ∧
      (stream_restore_read_callback eq pas i 0).qhVolumes = pas.qhVolumes ∧
      ∀ e ∈ new, ∃ info, e = Effect.pa_ext_stream_restore_write info := by
  rcases hf : QHash.find? pas.qhMissingSinks (QLatin1String (some i.name)) with _ | missing
  · exact ⟨[], by simp [stream_restore_read_callback, hf]⟩
  · by_cases hv : eq missing.attenuated_volume i.volume = true
    · exact ⟨[Effect.pa_ext_stream_restore_write { i with volume := missing.normal_volume }],
        by simp [stream_restore_read_callback, hf, hv]⟩
    · exact ⟨[], by simp [stream_restore_read_callback, hf, hv]⟩

/-- An error terminator (`eol < 0`) of the database read only clears
`qhMissingSinks`. -/
theorem restore_read_error (eq : pa_cvolume → pa_cvolume → Bool) (pas : PulseAudioSystem)
    (i : pa_ext_stream_restore_info) (eol : Int) (h : eol < 0) :
    stream_restore_read_callback eq pas i eol = { pas with qhMissingSinks := [] } := by
  simp [stream_restore_read_callback, h, h.ne]

/-- The end of the database read (`eol > 0`). -/
theorem restore_read_end (eq : pa_cvolume → pa_cvolume → Bool) (pas : PulseAudioSystem)
    (i : pa_ext_stream_restore_info) (eol : Int) (h : 0 < eol) :
    ∃ wk : List Effect,
      (stream_restore_read_callback eq pas i eol).issued = pas.issued ++ wk ∧
      (stream_restore_read_callback eq pas i eol).iRemainingOperations
        = pas.iRemainingOperations - 1 ∧
      (stream_restore_read_callback eq pas i eol).qhVolumes = pas.qhVolumes ∧
      (wk = [] ∨ (wk = [Effect.qwcWait_wakeAll] ∧
        (stream_restore_read_callback eq pas i eol).iRemainingOperations = 0 ∧
        pas.bRunning = false)) := by
  have hne : eol ≠ 0 := h.ne'
  have hnl : ¬ eol < 0 := not_lt.mpr h.le
  simp only [stream_restore_read_callback, hne, hnl, if_false]
  by_cases hm : QHash.count pas.qhMissingSinks > 0
  · simp only [hm, if_true]
    obtain ⟨wk, w1, w2, w3, w4, _, _, _, w8⟩ :=
      restore_volume_success_callback_summary { pas with qhMissingSinks := [] }
    exact ⟨wk, w1, w2, w4, w3⟩
  · simp only [hm, if_false]
    obtain ⟨wk, w1, w2, w3, w4, _, _, _, w8⟩ := restore_volume_success_callback_summary pas
    exact ⟨wk, w1, w2, w4, w3⟩

/-- `setVolumes` in the restoring branch. -/
theorem setVolumes_restore (pas : PulseAudioSystem) (h : pas.bAttenuating = false) :
    setVolumes pas = { pas with
      iRemainingOperations := pas.iRemainingOperations + 1
      issued := pas.issued ++ [Effect.pa_context_get_sink_input_info_list true] } := by
  simp [setVolumes, h]

/-- `setVolumes` in the attenuating branch with nothing on record. -/
theorem setVolumes_attenuate_empty (pas : PulseAudioSystem) (h : pas.bAttenuating = true)
    (he : pas.qhVolumes = []) :
    setVolumes pas = { pas with
      issued := pas.issued ++ [Effect.pa_context_get_sink_input_info_list false] } := by
  simp [setVolumes, h, he, QHash.count]

/-- `setVolumes` in the attenuating branch with an attenuation on record. -/
theorem setVolumes_attenuate_nonempty (pas : PulseAudioSystem) (h : pas.bAttenuating = true)
    (he : pas.qhVolumes ≠ []) : setVolumes pas = pas := by
  simp [setVolumes, h, he, QHash.count]

/-- What `volume_sink_input_list_callback` appends: nothing, or one set-volume
operation without completion callback. -/
theorem volume_list_summary (mul : pa_cvolume → Nat → pa_cvolume) (g : Global)
    (pas : PulseAudioSystem) (i : pa_sink_input_info) (eol : Int) :
    ∃ new : List Effect,
      (volume_sink_input_list_callback mul g pas i eol).issued = pas.issued ++ new ∧
      (volume_sink_input_list_callback mul g pas i eol).iRemainingOperations
        = pas.iRemainingOperations ∧
      ∀ e ∈ new, ∃ idx v, e = Effect.pa_context_set_sink_input_volume idx v false := by
  by_cases h0 : eol = 0
  · by_cases hn : i.name = mumble_sink_input
    · exact ⟨[], by simp [volume_sink_input_list_callback, h0, hn]⟩
    · exact ⟨[Effect.pa_context_set_sink_input_volume i.index
        (mul i.volume g.s.otherVolumeAdj) false],
        by simp [volume_sink_input_list_callback, h0, hn]⟩
  · exact ⟨[], by simp [volume_sink_input_list_callback, h0]⟩

/-! ## Counting what a step requests -/

theorem counts_of_callback_ops (new : List Effect)
    (h : ∀ e ∈ new, (∃ idx v, e = Effect.pa_context_set_sink_input_volume idx v true) ∨
      (∃ info, e = Effect.pa_ext_stream_restore_write info)) :
    new.countP Effect.isRestoreListing = 0 ∧ new.countP Effect.isRestoreRead = 0 ∧
    new.countP Effect.hasSuccessCallback = new.length ∧
    Effect.qwcWait_wakeAll ∉ new ∧ Effect.pa_context_get_sink_input_info_list false ∉ new := by
  refine ⟨?_, ?_, ?_, ?_, ?_⟩
  · rw [List.countP_eq_zero]
    intro e he
    rcases h e he with ⟨_, _, rfl⟩ | ⟨_, rfl⟩ <;> simp [Effect.isRestoreListing]
  · rw [List.countP_eq_zero]
    intro e he
    rcases h e he with ⟨_, _, rfl⟩ | ⟨_, rfl⟩ <;> simp [Effect.isRestoreRead]
  · rw [List.countP_eq_length]
    intro e he
    rcases h e he with ⟨_, _, rfl⟩ | ⟨_, rfl⟩ <;> simp [Effect.hasSuccessCallback]
  · intro he
    rcases h _ he with ⟨_, _, h'⟩ | ⟨_, h'⟩ <;> simp at h'
  · intro he
    rcases h _ he with ⟨_, _, h'⟩ | ⟨_, h'⟩ <;> simp at h'

theorem counts_of_plain_ops (new : List Effect)
    (h : ∀ e ∈ new, ∃ idx v, e = Effect.pa_context_set_sink_input_volume idx v false) :
    new.countP Effect.isRestoreListing = 0 ∧ new.countP Effect.isRestoreRead = 0 ∧
    new.countP Effect.hasSuccessCallback = 0 ∧
    Effect.qwcWait_wakeAll ∉ new ∧ Effect.pa_context_get_sink_input_info_list false ∉ new := by
  refine ⟨?_, ?_, ?_, ?_, ?_⟩
  · rw [List.countP_eq_zero]
    intro e he
    obtain ⟨_, _, rfl⟩ := h e he
    simp [Effect.isRestoreListing]
  · rw [List.countP_eq_zero]
    intro e he
    obtain ⟨_, _, rfl⟩ := h e he
    simp [Effect.isRestoreRead]
  · rw [List.countP_eq_zero]
    intro e he
    obtain ⟨_, _, rfl⟩ := h e he
    simp [Effect.hasSuccessCallback]
  · intro he
    obtain ⟨_, _, h'⟩ := h _ he
    simp at h'
  · intro he
    obtain ⟨_, _, h'⟩ := h _ he
    simp at h'

/-- Bookkeeping of one event: what it appends to the log, how the counter moves
against the number of requests it makes that will be answered, when it can
issue the wake-up, and that it starts no attenuation listing while an
attenuation is on record. -/
theorem Event.apply_delta (eq : pa_cvolume → pa_cvolume → Bool)
    (mul : pa_cvolume → Nat → pa_cvolume) (pas : PulseAudioSystem) (e : Event) :
    ∃ new : List Effect,
      (Event.apply eq mul pas e).issued = pas.issued ++ new ∧
      (Event.apply eq mul pas e).iRemainingOperations
        = pas.iRemainingOperations +
          ((new.countP Effect.isRestoreListing + new.countP Effect.isRestoreRead
            + new.countP Effect.hasSuccessCallback : Nat) : Int)
          - (match e with
             | Event.restore_list _ eol => if 0 < eol then 1 else 0
             | Event.restore_read _ eol => if 0 < eol then 1 else 0
             | Event.volume_success => 1
             | _ => 0) ∧
      (Effect.qwcWait_wakeAll ∈ new → (Event.apply eq mul pas e).iRemainingOperations = 0) ∧
      (pas.qhVolumes ≠ [] → Effect.pa_context_get_sink_input_info_list false ∉ new) := by
  cases e with
  | setVolumes b =>
    cases b with
    | false =>
      refine ⟨[Effect.pa_context_get_sink_input_info_list true], ?_, ?_, ?_, ?_⟩ <;>
        simp [Event.apply, Mumble.setVolumes, Effect.isRestoreListing, Effect.isRestoreRead,
          Effect.hasSuccessCallback]
    | true =>
      by_cases he : pas.qhVolumes = []
      · refine ⟨[Effect.pa_context_get_sink_input_info_list false], ?_, ?_, ?_, ?_⟩ <;>
          simp [Event.apply, Mumble.setVolumes, Effect.isRestoreListing, Effect.isRestoreRead,
            Effect.hasSuccessCallback, he, QHash.count]
      · refine ⟨[], ?_, ?_, ?_, ?_⟩ <;>
          simp [Event.apply, Mumble.setVolumes, he, QHash.count]
  | shutdown =>
    by_cases ha : pas.bAttenuating = true
    · refine ⟨[Effect.pa_context_get_sink_input_info_list true], ?_, ?_, ?_, ?_⟩ <;>
        simp [Event.apply, PulseAudioSystem_destructor, Mumble.setVolumes, ha,
          Effect.isRestoreListing, Effect.isRestoreRead, Effect.hasSuccessCallback]
    · refine ⟨[], ?_, ?_, ?_, ?_⟩ <;>
        simp [Event.apply, PulseAudioSystem_destructor, ha]
  | volume_list g i eol =>
    obtain ⟨new, h1, h2, h3⟩ := volume_list_summary mul g pas i eol
    obtain ⟨c1, c2, c3, c4, c5⟩ := counts_of_plain_ops new h3
    refine ⟨new, h1, ?_, fun h => absurd h c4, fun _ => c5⟩
    simp [Event.apply, h2, c1, c2, c3]
  | restore_list i eol =>
    rcases lt_trichotomy eol 0 with hlt | heq | hgt
    · refine ⟨[], ?_, ?_, ?_, ?_⟩ <;>
        simp [Event.apply, restore_list_error eq pas i eol hlt, not_lt.mpr hlt.le]
    · subst heq
      obtain ⟨new, h1, h2, _, _, _, h6⟩ := restore_list_entry eq pas i
      obtain ⟨c1, c2, c3, c4, c5⟩ := counts_of_callback_ops new (fun e he => by
        obtain ⟨t, _, _, rfl⟩ := h6 e he
        exact Or.inl ⟨_, _, rfl⟩)
      refine ⟨new, h1, ?_, fun h => absurd h c4, fun _ => c5⟩
      simp [Event.apply, h2, c1, c2, c3]
    · obtain ⟨ops, rd, wk, h1, h2, h3, h4, _, _, _, _, h9⟩ := restore_list_end eq pas i eol hgt
      obtain ⟨c1, c2, c3, c4, c5⟩ := counts_of_callback_ops ops (fun e he => by
        obtain ⟨_, _, _, _, _, _, rfl⟩ := h9 e he
        exact Or.inl ⟨_, _, rfl⟩)
      refine ⟨ops ++ rd ++ wk, h1, ?_, ?_, ?_⟩
      · simp only [Event.apply, h2, hgt, if_true, List.countP_append, c1, c2, c3]
        rcases h3 with rfl | rfl <;> rcases h4 with rfl | ⟨rfl, _, _⟩ <;>
          simp [Effect.isRestoreListing, Effect.isRestoreRead, Effect.hasSuccessCallback] <;>
          ring
      · intro hw
        rcases h4 with rfl | ⟨_, h4, _⟩
        · exfalso
          rcases h3 with rfl | rfl <;> simp [c4] at hw
        · exact h4
      · intro _ hl
        rcases h3 with rfl | rfl <;> rcases h4 with rfl | ⟨rfl, _, _⟩ <;> simp [c5] at hl
  | restore_read i eol =>
    rcases lt_trichotomy eol 0 with hlt | heq | hgt
    · refine ⟨[], ?_, ?_, ?_, ?_⟩ <;>
        simp [Event.apply, restore_read_error eq pas i eol hlt, not_lt.mpr hlt.le]
    · subst heq
      obtain ⟨new, h1, h2, _, h4⟩ := restore_read_entry eq pas i
      obtain ⟨c1, c2, c3, c4, c5⟩ := counts_of_callback_ops new (fun e he => Or.inr (h4 e he))
      refine ⟨new, h1, ?_, fun h => absurd h c4, fun _ => c5⟩
      simp [Event.apply, h2, c1, c2, c3]
    · obtain ⟨wk, h1, h2, _, h4⟩ := restore_read_end eq pas i eol hgt
      refine ⟨wk, h1, ?_, ?_, ?_⟩
      · simp only [Event.apply, h2, hgt, if_true]
        rcases h4 with rfl | ⟨rfl, _, _⟩ <;>
          simp [Effect.isRestoreListing, Effect.isRestoreRead, Effect.hasSuccessCallback]
      · intro hw
        rcases h4 with rfl | ⟨_, h4, _⟩
        · simp at hw
        · exact h4
      · intro _ hl
        rcases h4 with rfl | ⟨rfl, _, _⟩ <;> simp at hl
  | volume_success =>
    obtain ⟨wk, h1, h2, h3, _⟩ := restore_volume_success_callback_summary pas
    refine ⟨wk, h1, ?_, ?_, ?_⟩
    · simp only [Event.apply, h2]
      rcases h3 with rfl | ⟨rfl, _, _⟩ <;>
        simp [Effect.isRestoreListing, Effect.isRestoreRead, Effect.hasSuccessCallback]
    · intro hw
      rcases h3 with rfl | ⟨_, h3, _⟩
      · simp at hw
      · exact h3
    · intro _ hl
      rcases h3 with rfl | ⟨rfl, _, _⟩ <;> simp at hl

/-! ## The counter covers everything outstanding -/

theorem World.init_balanced (pas : PulseAudioSystem) (h0 : pas.iRemainingOperations = 0) :
    (World.init pas).Balanced := by
  simp [World.Balanced, World.init, h0]

theorem World.step_balanced (eq : pa_cvolume → pa_cvolume → Bool)
    (mul : pa_cvolume → Nat → pa_cvolume) (w w' : World) (e : Event)
    (hb : w.Balanced) (hstep : World.step eq mul w e = some w') : w'.Balanced := by
  obtain ⟨new, h1, h2, _, _⟩ := Event.apply_delta eq mul w.pas e
  unfold World.Balanced at hb ⊢
  obtain ⟨hL, hR, hO, hbal⟩ := hb
  cases e with
  | restore_list i eol =>
    simp only [World.step] at hstep
    by_cases hen : 0 < w.listingsOutstanding
    · simp only [hen, if_true] at hstep
      cases hstep
      simp only [h1, h2, List.countP_append]
      unfold World.listingsOutstanding at hen
      by_cases h0 : eol = 0
      · have : ¬ (0 : Int) < eol := by omega
        simp only [h0, this, if_true, if_false]
        omega
      · simp only [h0, if_false]
        split_ifs <;> omega
    · simp [hen] at hstep
  | restore_read i eol =>
    simp only [World.step] at hstep
    by_cases hen : 0 < w.readsOutstanding
    · simp only [hen, if_true] at hstep
      cases hstep
      simp only [h1, h2, List.countP_append]
      unfold World.readsOutstanding at hen
      by_cases h0 : eol = 0
      · have : ¬ (0 : Int) < eol := by omega
        simp only [h0, this, if_true, if_false]
        omega
      · simp only [h0, if_false]
        split_ifs <;> omega
    · simp [hen] at hstep
  | volume_success =>
    simp only [World.step] at hstep
    by_cases hen : 0 < w.opsOutstanding
    · simp only [hen, if_true] at hstep
      cases hstep
      simp only [h1, h2, List.countP_append]
      unfold World.opsOutstanding at hen
      omega
    · simp [hen] at hstep
  | setVolumes b =>
    simp only [World.step] at hstep
    cases hstep
    simp only [h1, h2, List.countP_append]
    omega
  | shutdown =>
    simp only [World.step] at hstep
    cases hstep
    simp only [h1, h2, List.countP_append]
    omega
  | volume_list g i eol =>
    simp only [World.step] at hstep
    cases hstep
    simp only [h1, h2, List.countP_append]
    omega

theorem World.run_balanced (eq : pa_cvolume → pa_cvolume → Bool)
    (mul : pa_cvolume → Nat → pa_cvolume) (evs : List Event) (w w' : World)
    (hb : w.Balanced) (hrun : World.run eq mul w evs = some w') : w'.Balanced := by
  induction evs generalizing w with
  | nil =>
    simp only [World.run] at hrun
    cases hrun
    exact hb
  | cons e es ih =>
    simp only [World.run] at hrun
    rcases hs : World.step eq mul w e with _ | w1
    · simp [hs] at hrun
    · simp only [hs] at hrun
      exact ih w1 (World.step_balanced eq mul w w1 e hb hs) hrun

theorem World.outstanding_le_of_balanced (w : World) (hb : w.Balanced) :
    (w.outstanding : Int) ≤ w.pas.iRemainingOperations := by
  unfold World.Balanced at hb
  unfold World.outstanding World.listingsOutstanding World.readsOutstanding World.opsOutstanding
  omega

/-- C9: start from any state with `iRemainingOperations = 0` and nothing
outstanding, and let `setVolumes()`, the destructor and the deliveries of
`volume_sink_input_list_callback`, `restore_sink_input_list_callback`,
`stream_restore_read_callback` and `restore_volume_success_callback` interleave
in any way the server allows.  In every state reached, `iRemainingOperations`
is at least the number of outstanding items (restore listings and database reads
not yet terminated, operations whose success callback has not yet run), it is
never negative, and a step that calls `qwcWait.wakeAll()` ends in a state with
nothing outstanding. -/
theorem wake_only_when_nothing_pending (eq : pa_cvolume → pa_cvolume → Bool)
    (mul : pa_cvolume → Nat → pa_cvolume) (pas : PulseAudioSystem)
    (h0 : pas.iRemainingOperations = 0) (evs : List Event) (w : World)
    (hrun : World.run eq mul (World.init pas) evs = some w) :
    (w.outstanding : Int) ≤ w.pas.iRemainingOperations ∧
    0 ≤ w.pas.iRemainingOperations ∧
    ∀ (e : Event) (w' : World), World.step eq mul w e = some w' →
      Effect.qwcWait_wakeAll ∈ issuedBy (fun s => Event.apply eq mul s e) w.pas →
      w'.outstanding = 0 := by
  have hb := World.run_balanced eq mul evs _ w (World.init_balanced pas h0) hrun
  have hle := World.outstanding_le_of_balanced w hb
  refine ⟨hle, by omega, ?_⟩
  intro e w' hstep hwake
  have hb' := World.step_balanced eq mul w w' e hb hstep
  have hle' := World.outstanding_le_of_balanced w' hb'
  obtain ⟨new, h1, _, h3, _⟩ := Event.apply_delta eq mul w.pas e
  have hnew : issuedBy (fun s => Event.apply eq mul s e) w.pas = new :=
    issuedBy_eq_of_append h1
  rw [hnew] at hwake
  have hz := h3 hwake
  have hpas : w'.pas = Event.apply eq mul w.pas e := by
    cases e <;> simp only [World.step] at hstep <;> (try split_ifs at hstep) <;>
      cases hstep <;> rfl
  rw [hpas] at hle'
  omega

/-- Instance of C9: `exampleAttenuating` is shut down, the restore listing
reports the attenuated stream and ends.  The reset of sink input 7 is then the
one outstanding item and the counter is 1; the wake-up is issued by the success
callback of that reset, which leaves nothing outstanding. -/
theorem wake_only_when_nothing_pending_witness :
    exampleAttenuating.iRemainingOperations = 0 ∧
    World.run exampleEqual exampleScale (World.init exampleAttenuating)
      [Event.shutdown,
       Event.restore_list
         { index := 7, name := "music", volume := exampleVolume 32768
           proplist := [("module-stream-restore.id", "sink-input-by-application-name:music")] }
         0,
       Event.restore_list default 1] = some examplePendingReset ∧
    examplePendingReset.outstanding = 1 ∧
    (examplePendingReset.outstanding : Int) ≤ examplePendingReset.pas.iRemainingOperations ∧
    World.step exampleEqual exampleScale examplePendingReset Event.volume_success
      = some exampleWoken ∧
    Effect.qwcWait_wakeAll ∈
      issuedBy (fun s => Event.apply exampleEqual exampleScale s Event.volume_success)
        examplePendingReset.pas ∧
    exampleWoken.outstanding = 0 :=
  ⟨rfl, rfl, by decide,
    (wake_only_when_nothing_pending exampleEqual exampleScale exampleAttenuating rfl
      [Event.shutdown,
       Event.restore_list
         { index := 7, name := "music", volume := exampleVolume 32768
           proplist := [("module-stream-restore.id", "sink-input-by-application-name:music")] }
         0,
       Event.restore_list default 1] examplePendingReset rfl).1,
    rfl, by decide,
    (wake_only_when_nothing_pending exampleEqual exampleScale exampleAttenuating rfl
      [Event.shutdown,
       Event.restore_list
         { index := 7, name := "music", volume := exampleVolume 32768
           proplist := [("module-stream-restore.id", "sink-input-by-application-name:music")] }
         0,
       Event.restore_list default 1] examplePendingReset rfl).2.2
      Event.volume_success exampleWoken rfl (by decide)⟩

/-! ## Without error terminations the counter is exact -/

theorem World.step_exact (eq : pa_cvolume → pa_cvolume → Bool)
    (mul : pa_cvolume → Nat → pa_cvolume) (w w' : World) (e : Event)
    (hb : w.Balanced)
    (hex : w.pas.iRemainingOperations = (w.outstanding : Int))
    (hok : e.isErrorEnd = false)
    (hstep : World.step eq mul w e = some w') :
    w'.pas.iRemainingOperations = (w'.outstanding : Int) := by
  obtain ⟨new, h1, h2, _, _⟩ := Event.apply_delta eq mul w.pas e
  unfold World.Balanced at hb
  obtain ⟨hL, hR, hO, _⟩ := hb
  unfold World.outstanding World.listingsOutstanding World.readsOutstanding
    World.opsOutstanding at hex ⊢
  cases e with
  | restore_list i eol =>
    simp only [World.step] at hstep
    have hnl : ¬ eol < 0 := by simpa [Event.isErrorEnd] using hok
    by_cases hen : 0 < w.listingsOutstanding
    · simp only [hen, if_true] at hstep
      cases hstep
      simp only [h1, h2, List.countP_append]
      unfold World.listingsOutstanding at hen
      by_cases h0 : eol = 0
      · have : ¬ (0 : Int) < eol := by omega
        simp only [h0, this, if_true, if_false]
        omega
      · have : (0 : Int) < eol := by omega
        simp only [h0, this, if_true, if_false]
        omega
    · simp [hen] at hstep
  | restore_read i eol =>
    simp only [World.step] at hstep
    have hnl : ¬ eol < 0 := by simpa [Event.isErrorEnd] using hok
    by_cases hen : 0 < w.readsOutstanding
    · simp only [hen, if_true] at hstep
      cases hstep
      simp only [h1, h2, List.countP_append]
      unfold World.readsOutstanding at hen
      by_cases h0 : eol = 0
      · have : ¬ (0 : Int) < eol := by omega
        simp only [h0, this, if_true, if_false]
        omega
      · have : (0 : Int) < eol := by omega
        simp only [h0, this, if_true, if_false]
        omega
    · simp [hen] at hstep
  | volume_success =>
    simp only [World.step] at hstep
    by_cases hen : 0 < w.opsOutstanding
    · simp only [hen, if_true] at hstep
      cases hstep
      simp only [h1, h2, List.countP_append]
      unfold World.opsOutstanding at hen
      omega
    · simp [hen] at hstep
  | setVolumes b =>
    simp only [World.step] at hstep
    cases hstep
    simp only [h1, h2, List.countP_append]
    omega
  | shutdown =>
    simp only [World.step] at hstep
    cases hstep
    simp only [h1, h2, List.countP_append]
    omega
  | volume_list g i eol =>
    simp only [World.step] at hstep
    cases hstep
    simp only [h1, h2, List.countP_append]
    omega

/-- When no listing and no database read ends with an error, the counter is
exactly the number of outstanding items: once everything has been answered it
is 0 again.  This is the bookkeeping the end-of-list branches maintain. -/
theorem counter_exact_without_errors (eq : pa_cvolume → pa_cvolume → Bool)
    (mul : pa_cvolume → Nat → pa_cvolume) (evs : List Event) (w0 w : World)
    (hb : w0.Balanced) (hex : w0.pas.iRemainingOperations = (w0.outstanding : Int))
    (hok : ∀ e ∈ evs, e.isErrorEnd = false)
    (hrun : World.run eq mul w0 evs = some w) :
    w.pas.iRemainingOperations = (w.outstanding : Int) := by
  induction evs generalizing w0 with
  | nil =>
    simp only [World.run] at hrun
    cases hrun
    exact hex
  | cons e es ih =>
    simp only [World.run] at hrun
    rcases hs : World.step eq mul w0 e with _ | w1
    · simp [hs] at hrun
    · simp only [hs] at hrun
      exact ih w1 (World.step_balanced eq mul w0 w1 e hb hs)
        (World.step_exact eq mul w0 w1 e hb hex (hok e (List.mem_cons_self _ _)) hs)
        (fun e' he' => hok e' (List.mem_cons_of_mem _ he')) hrun

/-- C8 (what the code does on the error paths): shut down while attenuating and
let the sink-input listing end with an error (`eol = -1`), or let it end
normally with the attenuated stream gone and the stream-restore read end with an
error.  Every request has then been answered, yet `iRemainingOperations` is 1
and `qwcWait.wakeAll()` was never called, so the destructor is left to its
timeout. -/
theorem restore_error_leaves_shutdown_waiting (eq : pa_cvolume → pa_cvolume → Bool)
    (mul : pa_cvolume → Nat → pa_cvolume) :
    (World.run eq mul (World.init exampleAttenuating)
        [Event.shutdown, Event.restore_list default (-1)] = some stuckAfterListingError ∧
      stuckAfterListingError.outstanding = 0 ∧
      stuckAfterListingError.pas.bRunning = false ∧
      stuckAfterListingError.pas.iRemainingOperations = 1 ∧
      Effect.qwcWait_wakeAll ∉ stuckAfterListingError.pas.issued) ∧
    (World.run eq mul (World.init exampleAttenuating)
        [Event.shutdown, Event.restore_list default 1, Event.restore_read default (-1)]
        = some stuckAfterReadError ∧
      stuckAfterReadError.outstanding = 0 ∧
      stuckAfterReadError.pas.bRunning = false ∧
      stuckAfterReadError.pas.iRemainingOperations = 1 ∧
      Effect.qwcWait_wakeAll ∉ stuckAfterReadError.pas.issued) := by
  refine ⟨⟨rfl, ?_, ?_, ?_, ?_⟩, ⟨rfl, ?_, ?_, ?_, ?_⟩⟩ <;> decide

/-- C10: with `bAttenuating` true, `setVolumes()` requests the attenuating
sink-input listing exactly when `qhVolumes` is empty (and then changes nothing
else); when `qhVolumes` is not empty it issues nothing and leaves the state as
it is.  Hence, after any sequence of events, no step taken while `qhVolumes` is
non-empty starts a new attenuation listing.  With `bAttenuating` false,
`setVolumes()` requests the restore listing and adds exactly 1 to
`iRemainingOperations`. -/
theorem attenuation_not_restarted_while_on_record (eq : pa_cvolume → pa_cvolume → Bool)
    (mul : pa_cvolume → Nat → pa_cvolume) :
    (∀ pas : PulseAudioSystem, pas.bAttenuating = true →
      (Effect.pa_context_get_sink_input_info_list false ∈ issuedBy setVolumes pas ↔
        pas.qhVolumes = []) ∧
      (pas.qhVolumes = [] →
        setVolumes pas = { pas with
          issued := pas.issued ++ [Effect.pa_context_get_sink_input_info_list false] }) ∧
      (pas.qhVolumes ≠ [] → setVolumes pas = pas ∧ issuedBy setVolumes pas = [])) ∧
    (∀ (pas : PulseAudioSystem) (evs : List Event) (e : Event),
      (evs.foldl (Event.apply eq mul) pas).qhVolumes ≠ [] →
      Effect.pa_context_get_sink_input_info_list false ∉
        issuedBy (fun s => Event.apply eq mul s e) (evs.foldl (Event.apply eq mul) pas)) ∧
    (∀ pas : PulseAudioSystem, pas.bAttenuating = false →
      issuedBy setVolumes pas = [Effect.pa_context_get_sink_input_info_list true] ∧
      (setVolumes pas).iRemainingOperations = pas.iRemainingOperations + 1) := by
  refine ⟨?_, ?_, ?_⟩
  · intro pas ha
    refine ⟨?_, setVolumes_attenuate_empty pas ha, ?_⟩
    · by_cases he : pas.qhVolumes = []
      · simp [issuedBy, setVolumes_attenuate_empty pas ha he, he]
      · simp [issuedBy, setVolumes_attenuate_nonempty pas ha he, he]
    · intro he
      simp [issuedBy, setVolumes_attenuate_nonempty pas ha he]
  · intro pas evs e hne
    obtain ⟨new, h1, _, _, h4⟩ := Event.apply_delta eq mul (evs.foldl (Event.apply eq mul) pas) e
    have hnew : issuedBy (fun s => Event.apply eq mul s e) (evs.foldl (Event.apply eq mul) pas)
        = new := issuedBy_eq_of_append h1
    rw [hnew]
    exact h4 hne
  · intro pas ha
    simp [issuedBy, setVolumes_restore pas ha]

/-! ## The restore pass only resets volumes that still carry the attenuation -/

theorem QHash.mem_of_find? {K V : Type} [DecidableEq K] (h : QHash K V) (k : K) (v : V)
    (hf : QHash.find? h k = some v) : (k, v) ∈ h := by
  induction h with
  | nil => simp [QHash.find?] at hf
  | cons p t ih =>
    obtain ⟨k', v'⟩ := p
    by_cases hk : k' = k
    · simp only [QHash.find?, hk, if_true, Option.some.injEq] at hf
      subst hk hf
      exact List.mem_cons_self _ _
    · simp only [QHash.find?, hk, if_false] at hf
      exact List.mem_cons_of_mem _ (ih hf)

theorem QHash.find?_insert {K V : Type} [DecidableEq K] (h : QHash K V) (k k' : K) (v : V) :
    QHash.find? (QHash.insert h k v) k' = if k = k' then some v else QHash.find? h k' := by
  induction h with
  | nil => simp [QHash.insert, QHash.find?]
  | cons p t ih =>
    obtain ⟨k0, v0⟩ := p
    by_cases h0 : k0 = k
    · subst h0
      by_cases h1 : k0 = k' <;> simp [QHash.insert, QHash.find?, h1]
    · by_cases h1 : k0 = k'
      · subst h1
        simp [QHash.insert, QHash.find?, h0, Ne.symm h0]
      · simp [QHash.insert, QHash.find?, h0, h1, ih]

/-- What a listing entry can add to `qhUnmatchedSinks`: only a record of the
entry itself, and only when the entry is not tracked. -/
theorem restore_list_entry_unmatched (eq : pa_cvolume → pa_cvolume → Bool)
    (pas : PulseAudioSystem) (i : pa_sink_input_info) (rid : String) (a : PulseAttenuation)
    (h : QHash.find? (restore_sink_input_list_callback eq pas i 0).qhUnmatchedSinks rid
      = some a) :
    QHash.find? pas.qhUnmatchedSinks rid = some a ∨
      (QHash.find? pas.qhVolumes i.index = none ∧ a.index = i.index ∧
        a.normal_volume = i.volume) := by
  rcases hf : QHash.find? pas.qhVolumes i.index with _ | tracked
  · simp only [restore_sink_input_list_callback, hf, if_true, QHash.find?_insert] at h
    split_ifs at h with hk
    · right
      simp only [Option.some.injEq] at h
      subst h
      exact ⟨rfl, rfl, rfl⟩
    · exact Or.inl h
  · left
    by_cases hv : eq i.volume tracked.attenuated_volume = true
    · simpa [restore_sink_input_list_callback, hf, hv] using h
    · simpa [restore_sink_input_list_callback, hf, hv] using h

/-- The entries of a restore listing: every operation issued is a reset of a
tracked entry that reports its attenuated volume, and every record in
`qhUnmatchedSinks` that was not there before describes an untracked entry. -/
theorem deliver_restore_entries_summary (eq : pa_cvolume → pa_cvolume → Bool)
    (entries : List pa_sink_input_info) (pas : PulseAudioSystem) :
    ∃ new : List Effect,
      (deliver_restore_entries eq pas entries).issued = pas.issued ++ new ∧
      (deliver_restore_entries eq pas entries).qhVolumes = pas.qhVolumes ∧
      (∀ e ∈ new, ∃ i ∈ entries, ∃ tracked : PulseAttenuation,
        QHash.find? pas.qhVolumes i.index = some tracked ∧
        eq i.volume tracked.attenuated_volume = true ∧
        e = Effect.pa_context_set_sink_input_volume i.index tracked.normal_volume true) ∧
      (∀ rid a, QHash.find? (deliver_restore_entries eq pas entries).qhUnmatchedSinks rid
          = some a →
        QHash.find? pas.qhUnmatchedSinks rid = some a ∨
          ∃ i ∈ entries, QHash.find? pas.qhVolumes i.index = none ∧ a.index = i.index ∧
            a.normal_volume = i.volume) := by
  induction entries generalizing pas with
  | nil => exact ⟨[], by simp [deliver_restore_entries]⟩
  | cons i t ih =>
    obtain ⟨new1, a1, _, a3, _, _, a6⟩ := restore_list_entry eq pas i
    obtain ⟨new2, b1, b2, b3, b4⟩ := ih (restore_sink_input_list_callback eq pas i 0)
    have hstep : deliver_restore_entries eq pas (i :: t)
        = deliver_restore_entries eq (restore_sink_input_list_callback eq pas i 0) t := rfl
    rw [hstep]
    refine ⟨new1 ++ new2, ?_, ?_, ?_, ?_⟩
    · rw [b1, a1, List.append_assoc]
    · rw [b2, a3]
    · intro e he
      rcases List.mem_append.mp he with he | he
      · obtain ⟨tracked, h1, h2, h3⟩ := a6 e he
        exact ⟨i, List.mem_cons_self _ _, tracked, h1, h2, h3⟩
      · obtain ⟨j, hj, tracked, h1, h2, h3⟩ := b3 e he
        rw [a3] at h1
        exact ⟨j, List.mem_cons_of_mem _ hj, tracked, h1, h2, h3⟩
    · intro rid a h
      rcases b4 rid a h with h | ⟨j, hj, h1, h2, h3⟩
      · rcases restore_list_entry_unmatched eq pas i rid a h with h | ⟨h1, h2, h3⟩
        · exact Or.inl h
        · exact Or.inr ⟨i, List.mem_cons_self _ _, h1, h2, h3⟩
      · rw [a3] at h1
        exact Or.inr ⟨j, List.mem_cons_of_mem _ hj, h1, h2, h3⟩

/-- Where the set-volume operations of a whole restore listing come from, when
the pass starts with `qhUnmatchedSinks` empty. -/
theorem deliver_restore_listing_ops (eq : pa_cvolume → pa_cvolume → Bool)
    (pas : PulseAudioSystem) (entries : List pa_sink_input_info) (eol : Int)
    (hun : pas.qhUnmatchedSinks = []) (heol : 0 < eol) (idx : Nat) (vol : pa_cvolume)
    (cb : Bool)
    (h : Effect.pa_context_set_sink_input_volume idx vol cb ∈
      issuedBy (fun s => deliver_restore_listing eq s entries eol) pas) :
    ∃ i ∈ entries, i.index = idx ∧
      ((∃ tracked, QHash.find? pas.qhVolumes idx = some tracked ∧
          eq i.volume tracked.attenuated_volume = true ∧ vol = tracked.normal_volume) ∨
        (QHash.find? pas.qhVolumes idx = none ∧ ∃ it ∈ pas.qhVolumes,
          eq i.volume it.2.attenuated_volume = true ∧ vol = it.2.normal_volume)) := by
  obtain ⟨new, a1, a2, a3, a4⟩ := deliver_restore_entries_summary eq entries pas
  obtain ⟨ops, rd, wk, b1, _, b3, b4, _, _, _, _, b9⟩ :=
    restore_list_end eq (deliver_restore_entries eq pas entries) default eol heol
  have hiss : issuedBy (fun s => deliver_restore_listing eq s entries eol) pas
      = new ++ (ops ++ rd ++ wk) := by
    apply issuedBy_eq_of_append
    show (restore_sink_input_list_callback eq (deliver_restore_entries eq pas entries)
      default eol).issued = _
    rw [b1, a1, List.append_assoc]
  rw [hiss] at h
  simp only [List.mem_append] at h
  rcases h with h | (h | h) | h
  · obtain ⟨i, hi, tracked, h1, h2, h3⟩ := a3 _ h
    simp only [Effect.pa_context_set_sink_input_volume.injEq] at h3
    obtain ⟨rfl, rfl, _⟩ := h3
    exact ⟨i, hi, rfl, Or.inl ⟨tracked, h1, h2, rfl⟩⟩
  · obtain ⟨it, hit, active, _, h2, h3, h4⟩ := b9 _ h
    simp only [Effect.pa_context_set_sink_input_volume.injEq] at h4
    obtain ⟨rfl, rfl, _⟩ := h4
    rw [a2] at hit
    rcases a4 _ _ h2 with h2 | ⟨i, hi, c1, c2, c3⟩
    · simp [hun, QHash.find?] at h2
    · rw [c3] at h3
      exact ⟨i, hi, c2.symm, Or.inr ⟨by rw [c2]; exact c1, it, hit, h3, rfl⟩⟩
  · rcases b3 with rfl | rfl <;> simp at h
  · rcases b4 with rfl | ⟨rfl, _, _⟩ <;> simp at h

/-- One restore pass in isolation: feed `restore_sink_input_list_callback` any
entries (`eol = 0`) and then the end of the list (`eol > 0`), from any
`qhVolumes` and with `qhUnmatchedSinks` empty at the start of the pass.  Every
`pa_context_set_sink_input_volume` issued targets the index of a stream of this
listing whose reported volume compares equal (`pa_cvolume_equal`) to the
`attenuated_volume` of an entry of `qhVolumes`, and sets that entry's
`normal_volume`.  In particular a tracked index whose reported volume differs
from the recorded `attenuated_volume` gets no such operation. -/
theorem restore_only_resets_attenuated (eq : pa_cvolume → pa_cvolume → Bool)
    (pas : PulseAudioSystem) (entries : List pa_sink_input_info) (eol : Int)
    (hun : pas.qhUnmatchedSinks = []) (heol : 0 < eol) :
    (∀ idx vol cb, Effect.pa_context_set_sink_input_volume idx vol cb ∈
        issuedBy (fun s => deliver_restore_listing eq s entries eol) pas →
      ∃ i ∈ entries, i.index = idx ∧ ∃ it ∈ pas.qhVolumes,
        eq i.volume it.2.attenuated_volume = true ∧ vol = it.2.normal_volume) ∧
    (∀ idx tracked, QHash.find? pas.qhVolumes idx = some tracked →
      (∀ i ∈ entries, i.index = idx → eq i.volume tracked.attenuated_volume = false) →
      ∀ vol cb, Effect.pa_context_set_sink_input_volume idx vol cb ∉
        issuedBy (fun s => deliver_restore_listing eq s entries eol) pas) := by
  constructor
  · intro idx vol cb h
    obtain ⟨i, hi, hidx, h | h⟩ := deliver_restore_listing_ops eq pas entries eol hun heol _ _ _ h
    · obtain ⟨tracked, h1, h2, h3⟩ := h
      exact ⟨i, hi, hidx, (idx, tracked), QHash.mem_of_find? _ _ _ h1, h2, h3⟩
    · obtain ⟨_, it, hit, h2, h3⟩ := h
      exact ⟨i, hi, hidx, it, hit, h2, h3⟩
  · intro idx tracked htr hdiff vol cb h
    obtain ⟨i, hi, hidx, h | h⟩ := deliver_restore_listing_ops eq pas entries eol hun heol _ _ _ h
    · obtain ⟨tracked', h1, h2, _⟩ := h
      rw [htr] at h1
      cases h1
      rw [hdiff i hi hidx] at h2
      exact Bool.false_ne_true h2
    · rw [htr] at h
      exact Option.noConfusion h.1

/-! ## Attenuate, then restore -/

theorem QHash.insert_of_not_mem {K V : Type} [DecidableEq K] (h : QHash K V) (k : K) (v : V)
    (hk : k ∉ QHash.keys h) : QHash.insert h k v = h ++ [(k, v)] := by
  induction h with
  | nil => rfl
  | cons p t ih =>
    obtain ⟨k', v'⟩ := p
    simp only [QHash.keys, List.map_cons, List.mem_cons, not_or] at hk
    have hne : ¬ k' = k := fun e => hk.1 e.symm
    simp only [QHash.insert, hne, if_false, List.cons_append]
    rw [ih hk.2]

theorem QHash.find?_eq_none_of_not_mem {K V : Type} [DecidableEq K] (h : QHash K V) (k : K)
    (hk : k ∉ QHash.keys h) : QHash.find? h k = none := by
  rcases hf : QHash.find? h k with _ | v
  · rfl
  · exact absurd (List.mem_map_of_mem Prod.fst (QHash.mem_of_find? h k v hf)) hk

/-- The record `volume_sink_input_list_callback` stores for an entry. -/
theorem deliver_volume_entries_qhVolumes (mul : pa_cvolume → Nat → pa_cvolume) (g : Global)
    (L : List pa_sink_input_info) (pas : PulseAudioSystem)
    (hnd : (L.map (fun i => i.index)).Nodup)
    (hfresh : ∀ i ∈ L, i.index ∉ QHash.keys pas.qhVolumes) :
    (deliver_volume_entries mul g pas L).qhVolumes = pas.qhVolumes ++
      (L.filter (fun i => decide (i.name ≠ mumble_sink_input))).map (fun i =>
        (i.index, ({ index := i.index
                     name := QLatin1String (some i.name)
                     stream_restore_id :=
                       QLatin1String (pa_proplist_gets i.proplist "module-stream-restore.id")
                     normal_volume := i.volume
                     attenuated_volume := mul i.volume g.s.otherVolumeAdj } :
                   PulseAttenuation))) ∧
    (deliver_volume_entries mul g pas L).qhMissingSinks = pas.qhMissingSinks := by
  induction L generalizing pas with
  | nil => simp [deliver_volume_entries]
  | cons i t ih =>
    have hstep : deliver_volume_entries mul g pas (i :: t)
        = deliver_volume_entries mul g (volume_sink_input_list_callback mul g pas i 0) t := rfl
    rw [hstep]
    simp only [List.map_cons, List.nodup_cons, List.mem_map, not_exists, not_and] at hnd
    by_cases hn : i.name = mumble_sink_input
    · have hs : volume_sink_input_list_callback mul g pas i 0 = pas := by
        simp [volume_sink_input_list_callback, hn]
      rw [hs]
      obtain ⟨h1, h2⟩ := ih pas hnd.2 (fun j hj => hfresh j (List.mem_cons_of_mem _ hj))
      refine ⟨?_, h2⟩
      rw [h1]
      simp [hn]
    · have hi : i.index ∉ QHash.keys pas.qhVolumes := hfresh i (List.mem_cons_self _ _)
      have hq : (volume_sink_input_list_callback mul g pas i 0).qhVolumes = pas.qhVolumes ++
          [(i.index, ({ index := i.index
                        name := QLatin1String (some i.name)
                        stream_restore_id :=
                          QLatin1String (pa_proplist_gets i.proplist "module-stream-restore.id")
                        normal_volume := i.volume
                        attenuated_volume := mul i.volume g.s.otherVolumeAdj } :
                      PulseAttenuation))] := by
        simp [volume_sink_input_list_callback, hn, QHash.insert_of_not_mem _ _ _ hi]
      have hm : (volume_sink_input_list_callback mul g pas i 0).qhMissingSinks
          = pas.qhMissingSinks := by
        simp [volume_sink_input_list_callback, hn]
      obtain ⟨h1, h2⟩ := ih (volume_sink_input_list_callback mul g pas i 0) hnd.2 (by
        intro j hj hmem
        rw [hq] at hmem
        simp only [QHash.keys, List.map_append, List.map_cons, List.map_nil, List.mem_append,
          List.mem_singleton] at hmem
        rcases hmem with hmem | hmem
        · exact hfresh j (List.mem_cons_of_mem _ hj) hmem
        · exact hnd.1 j hj hmem)
      refine ⟨?_, h2.trans hm⟩
      rw [h1, hq]
      simp [hn]

theorem QHash.find?_map_of_mem {A V : Type} (key : A → Nat) (f : A → V) (M : List A)
    (hnd : (M.map key).Nodup) (j : A) (hj : j ∈ M) :
    QHash.find? (M.map (fun i => (key i, f i))) (key j) = some (f j) := by
  induction M with
  | nil => simp at hj
  | cons a t ih =>
    simp only [List.map_cons, List.nodup_cons, List.mem_map, not_exists, not_and] at hnd
    rcases List.mem_cons.mp hj with rfl | hj'
    · simp [QHash.find?]
    · have hne : ¬ key a = key j := fun e => hnd.1 j hj' e.symm
      simp only [List.map_cons, QHash.find?, hne, if_false]
      exact ih hnd.2 hj'

/-- After the attenuation pass over a listing with distinct indexes, started
with nothing on record: every stream other than Mumble's own is tracked with
its original and attenuated volume, Mumble's own streams are not tracked, and
nothing else is. -/
theorem deliver_volume_entries_tracking (mul : pa_cvolume → Nat → pa_cvolume) (g : Global)
    (L : List pa_sink_input_info) (pas : PulseAudioSystem)
    (hnd : (L.map (fun i => i.index)).Nodup) (hvol : pas.qhVolumes = []) :
    (∀ i ∈ L, i.name ≠ mumble_sink_input →
      ∃ patt : PulseAttenuation,
        QHash.find? (deliver_volume_entries mul g pas L).qhVolumes i.index = some patt ∧
        patt.normal_volume = i.volume ∧
        patt.attenuated_volume = mul i.volume g.s.otherVolumeAdj) ∧
    (∀ i ∈ L, i.name = mumble_sink_input →
      QHash.find? (deliver_volume_entries mul g pas L).qhVolumes i.index = none) ∧
    (∀ it ∈ (deliver_volume_entries mul g pas L).qhVolumes,
      ∃ i ∈ L, i.name ≠ mumble_sink_input ∧ it.1 = i.index) := by
  obtain ⟨hq, _⟩ := deliver_volume_entries_qhVolumes mul g L pas hnd (by simp [hvol, QHash.keys])
  rw [hvol, List.nil_append] at hq
  have hsub : (L.filter (fun i => decide (i.name ≠ mumble_sink_input))).Sublist L :=
    List.filter_sublist L
  have hnd' : ((L.filter (fun i => decide (i.name ≠ mumble_sink_input))).map
      (fun i => i.index)).Nodup := hnd.sublist (hsub.map _)
  refine ⟨?_, ?_, ?_⟩
  · intro i hi hn
    have hmem : i ∈ L.filter (fun i => decide (i.name ≠ mumble_sink_input)) :=
      List.mem_filter.mpr ⟨hi, by simpa using hn⟩
    rw [hq]
    exact ⟨_, QHash.find?_map_of_mem (fun i => i.index) _ _ hnd' i hmem, rfl, rfl⟩
  · intro i hi hn
    rw [hq]
    apply QHash.find?_eq_none_of_not_mem
    intro hmem
    simp only [QHash.keys, List.map_map, List.mem_map, List.mem_filter, Function.comp_apply]
      at hmem
    obtain ⟨j, ⟨hj, hjn⟩, hji⟩ := hmem
    have : j = i := List.inj_on_of_nodup_map hnd hj hi hji
    subst this
    simp [hn] at hjn
  · intro it hit
    rw [hq] at hit
    obtain ⟨i, hi, rfl⟩ := List.mem_map.mp hit
    obtain ⟨hiL, hin⟩ := List.mem_filter.mp hi
    exact ⟨i, hiL, by simpa using hin, rfl⟩

/-- The entries of the restore listing that mirrors an attenuated listing: each
stream other than Mumble's own is matched and reset to its original volume. -/
theorem deliver_restore_entries_round_trip (eq : pa_cvolume → pa_cvolume → Bool)
    (mul : pa_cvolume → Nat → pa_cvolume) (g : Global)
    (L L' : List pa_sink_input_info)
    (hsame : List.Forall₂ (fun i i' : pa_sink_input_info => i'.index = i.index ∧
      i'.name = i.name ∧
      (i.name ≠ mumble_sink_input → i'.volume = mul i.volume g.s.otherVolumeAdj)) L L')
    (pas : PulseAudioSystem)
    (htr : ∀ i ∈ L, i.name ≠ mumble_sink_input →
      ∃ patt : PulseAttenuation, QHash.find? pas.qhVolumes i.index = some patt ∧
        patt.normal_volume = i.volume ∧
        patt.attenuated_volume = mul i.volume g.s.otherVolumeAdj)
    (hun : ∀ i ∈ L, i.name = mumble_sink_input → QHash.find? pas.qhVolumes i.index = none)
    (hrefl : ∀ i ∈ L, i.name ≠ mumble_sink_input →
      eq (mul i.volume g.s.otherVolumeAdj) (mul i.volume g.s.otherVolumeAdj) = true) :
    (deliver_restore_entries eq pas L').issued = pas.issued ++
      (L.filter (fun i => decide (i.name ≠ mumble_sink_input))).map
        (fun i => Effect.pa_context_set_sink_input_volume i.index i.volume true) ∧
    (deliver_restore_entries eq pas L').qlMatchedSinks = pas.qlMatchedSinks ++
      (L.filter (fun i => decide (i.name ≠ mumble_sink_input))).map (fun i => i.index) ∧
    (deliver_restore_entries eq pas L').qhVolumes = pas.qhVolumes ∧
    (deliver_restore_entries eq pas L').qhMissingSinks = pas.qhMissingSinks := by
  induction hsame generalizing pas with
  | nil => simp [deliver_restore_entries]
  | @cons i i' t t' hhead _ ih =>
    obtain ⟨hidx, _, hv⟩ := hhead
    have hstep : deliver_restore_entries eq pas (i' :: t')
        = deliver_restore_entries eq (restore_sink_input_list_callback eq pas i' 0) t' := rfl
    rw [hstep]
    by_cases hn : i.name = mumble_sink_input
    · have hf := hun i (List.mem_cons_self _ _) hn
      rw [← hidx] at hf
      have hq : (restore_sink_input_list_callback eq pas i' 0).qhVolumes = pas.qhVolumes := by
        simp [restore_sink_input_list_callback, hf]
      obtain ⟨h1, h2, h3, h4⟩ := ih (restore_sink_input_list_callback eq pas i' 0)
        (fun j hj hjn => by rw [hq]; exact htr j (List.mem_cons_of_mem _ hj) hjn)
        (fun j hj hjn => by rw [hq]; exact hun j (List.mem_cons_of_mem _ hj) hjn)
        (fun j hj hjn => hrefl j (List.mem_cons_of_mem _ hj) hjn)
      have hs : restore_sink_input_list_callback eq pas i' 0 =
          { pas with
            qhUnmatchedSinks := QHash.insert pas.qhUnmatchedSinks
              (QLatin1String (pa_proplist_gets i'.proplist "module-stream-restore.id"))
              { index := i'.index, normal_volume := i'.volume } } := by
        simp [restore_sink_input_list_callback, hf]
      refine ⟨?_, ?_, ?_, ?_⟩
      · rw [h1, hs]; simp [hn]
      · rw [h2, hs]; simp [hn]
      · rw [h3, hq]
      · rw [h4, hs]
    · obtain ⟨patt, hf, hnormal, hatt⟩ := htr i (List.mem_cons_self _ _) hn
      rw [← hidx] at hf
      have heq : eq i'.volume patt.attenuated_volume = true := by
        rw [hv hn, hatt]
        exact hrefl i (List.mem_cons_self _ _) hn
      have hq : (restore_sink_input_list_callback eq pas i' 0).qhVolumes = pas.qhVolumes := by
        simp [restore_sink_input_list_callback, hf, heq]
      obtain ⟨h1, h2, h3, h4⟩ := ih (restore_sink_input_list_callback eq pas i' 0)
        (fun j hj hjn => by rw [hq]; exact htr j (List.mem_cons_of_mem _ hj) hjn)
        (fun j hj hjn => by rw [hq]; exact hun j (List.mem_cons_of_mem _ hj) hjn)
        (fun j hj hjn => hrefl j (List.mem_cons_of_mem _ hj) hjn)
      have hs : restore_sink_input_list_callback eq pas i' 0 =
          { pas with
            qlMatchedSinks := pas.qlMatchedSinks ++ [i'.index]
            iRemainingOperations := pas.iRemainingOperations + 1
            issued := pas.issued ++
              [Effect.pa_context_set_sink_input_volume i'.index patt.normal_volume true] } := by
        simp [restore_sink_input_list_callback, hf, heq]
      refine ⟨?_, ?_, ?_, ?_⟩
      · rw [h1, hs]; simp [hn, hidx, hnormal]
      · rw [h2, hs]; simp [hn, hidx]
      · rw [h3, hq]
      · rw [h4, hs]

/-- The loop at the end of the listing does nothing when every tracked index
was matched. -/
theorem restore_missing_fold_of_matched (eq : pa_cvolume → pa_cvolume → Bool)
    (H : List (Nat × PulseAttenuation)) (pas : PulseAudioSystem)
    (hall : ∀ it ∈ H, it.1 ∈ pas.qlMatchedSinks) :
    H.foldl (restore_missing_step eq) pas = pas := by
  induction H with
  | nil => rfl
  | cons it t ih =>
    have hs : restore_missing_step eq pas it = pas := by
      simp [restore_missing_step, hall it (List.mem_cons_self _ _)]
    simp only [List.foldl_cons, hs]
    exact ih (fun j hj => hall j (List.mem_cons_of_mem _ hj))

theorem filter_index_eq_of_nodup (M : List pa_sink_input_info)
    (hnd : (M.map (fun j => j.index)).Nodup) (i : pa_sink_input_info) (hi : i ∈ M) :
    M.filter (fun j => decide (j.index = i.index)) = [i] := by
  induction M with
  | nil => simp at hi
  | cons a t ih =>
    simp only [List.map_cons, List.nodup_cons, List.mem_map, not_exists, not_and] at hnd
    rcases List.mem_cons.mp hi with rfl | hi'
    · have ht : t.filter (fun j => decide (j.index = i.index)) = [] := by
        rw [List.filter_eq_nil_iff]
        intro j hj
        simpa using hnd.1 j hj
      simp [List.filter_cons, ht]
    · have hne : ¬ a.index = i.index := fun e => hnd.1 i hi' e.symm
      simp only [List.filter_cons, hne, decide_False, Bool.false_eq_true, if_false]
      exact ih hnd.2 hi'

theorem filter_setsVolumeOf_map (M : List pa_sink_input_info) (k : Nat) :
    (M.map (fun j => Effect.pa_context_set_sink_input_volume j.index j.volume true)).filter
        (Effect.setsVolumeOf k)
      = (M.filter (fun j => decide (j.index = k))).map
          (fun j => Effect.pa_context_set_sink_input_volume j.index j.volume true) := by
  induction M with
  | nil => rfl
  | cons a t ih =>
    by_cases h : a.index = k <;> simp [List.filter_cons, Effect.setsVolumeOf, h, ih]

/-- C1 (amended): start with nothing on record (`qhVolumes` empty), feed a listing
`L` with distinct indexes entry by entry to `volume_sink_input_list_callback`,
then feed `restore_sink_input_list_callback` the same streams `L'`, each stream
other than "Mumble Speakers" now reporting the attenuated volume that was stored
for it (a volume `pa_cvolume_equal` recognises as equal to itself), followed by
the end of the list.  The restore pass issues, in listing order, exactly one
`pa_context_set_sink_input_volume` per stream not named "Mumble Speakers",
setting its original volume, and no operation on a stream named
"Mumble Speakers".  A stream-restore read is issued exactly when
`qhMissingSinks` was not empty at the start (a read of an earlier pass is still
unanswered), so none is issued when it starts empty; apart from that and a
possible `qwcWait.wakeAll()` nothing else is issued.  Afterwards `qhVolumes`,
`qlMatchedSinks` and `qhUnmatchedSinks` are empty. -/
theorem attenuate_then_restore_round_trip (eq : pa_cvolume → pa_cvolume → Bool)
    (mul : pa_cvolume → Nat → pa_cvolume) (g : Global) (pas : PulseAudioSystem)
    (L L' : List pa_sink_input_info) (eol : Int)
    (hvol : pas.qhVolumes = [])
    (hnd : (L.map (fun i => i.index)).Nodup)
    (hsame : List.Forall₂ (fun i i' : pa_sink_input_info => i'.index = i.index ∧
      i'.name = i.name ∧
      (i.name ≠ "Mumble Speakers" → i'.volume = mul i.volume g.s.otherVolumeAdj)) L L')
    (hrefl : ∀ i ∈ L, i.name ≠ "Mumble Speakers" →
      eq (mul i.volume g.s.otherVolumeAdj) (mul i.volume g.s.otherVolumeAdj) = true)
    (heol : 0 < eol) :
    (∃ wk, (wk = [] ∨ wk = [Effect.qwcWait_wakeAll]) ∧
      issuedBy (fun s => deliver_restore_listing eq s L' eol) (deliver_volume_entries mul g pas L)
        = (L.filter (fun i => decide (i.name ≠ "Mumble Speakers"))).map
            (fun i => Effect.pa_context_set_sink_input_volume i.index i.volume true)
          ++ (if pas.qhMissingSinks = [] then [] else [Effect.pa_ext_stream_restore_read])
          ++ wk) ∧
    (∀ i ∈ L, i.name ≠ "Mumble Speakers" →
      (issuedBy (fun s => deliver_restore_listing eq s L' eol)
          (deliver_volume_entries mul g pas L)).filter (Effect.setsVolumeOf i.index)
        = [Effect.pa_context_set_sink_input_volume i.index i.volume true]) ∧
    (∀ i ∈ L, i.name = "Mumble Speakers" →
      (issuedBy (fun s => deliver_restore_listing eq s L' eol)
          (deliver_volume_entries mul g pas L)).filter (Effect.setsVolumeOf i.index) = []) ∧
    (Effect.pa_ext_stream_restore_read ∈
        issuedBy (fun s => deliver_restore_listing eq s L' eol)
          (deliver_volume_entries mul g pas L) ↔ pas.qhMissingSinks ≠ []) ∧
    (deliver_restore_listing eq (deliver_volume_entries mul g pas L) L' eol).qhVolumes = [] ∧
    (deliver_restore_listing eq (deliver_volume_entries mul g pas L) L' eol).qlMatchedSinks
      = [] ∧
    (deliver_restore_listing eq (deliver_volume_entries mul g pas L) L' eol).qhUnmatchedSinks
      = [] := by
  obtain ⟨t1, t2, t3⟩ := deliver_volume_entries_tracking mul g L pas hnd hvol
  have hm1 : (deliver_volume_entries mul g pas L).qhMissingSinks = pas.qhMissingSinks :=
    (deliver_volume_entries_qhVolumes mul g L pas hnd (by simp [hvol, QHash.keys])).2
  obtain ⟨r1, r2, r3, r4⟩ := deliver_restore_entries_round_trip eq mul g L L' hsame
    (deliver_volume_entries mul g pas L) t1 t2 hrefl
  have hfold : List.foldl (restore_missing_step eq)
      (deliver_restore_entries eq (deliver_volume_entries mul g pas L) L')
      (deliver_restore_entries eq (deliver_volume_entries mul g pas L) L').qhVolumes
      = deliver_restore_entries eq (deliver_volume_entries mul g pas L) L' := by
    apply restore_missing_fold_of_matched
    intro it hit
    rw [r3] at hit
    obtain ⟨i, hi, hin, hidx⟩ := t3 it hit
    rw [r2, hidx]
    apply List.mem_append_right
    exact List.mem_map_of_mem _ (List.mem_filter.mpr ⟨hi, by simpa using hin⟩)
  have hne : eol ≠ 0 := heol.ne'
  have hnl : ¬ eol < 0 := not_lt.mpr heol.le
  have key : ∃ wk, (wk = [] ∨ wk = [Effect.qwcWait_wakeAll]) ∧
      (deliver_restore_listing eq (deliver_volume_entries mul g pas L) L' eol).issued
        = (deliver_restore_entries eq (deliver_volume_entries mul g pas L) L').issued
          ++ (if pas.qhMissingSinks = [] then [] else [Effect.pa_ext_stream_restore_read])
          ++ wk ∧
      (deliver_restore_listing eq (deliver_volume_entries mul g pas L) L' eol).qhVolumes = [] ∧
      (deliver_restore_listing eq (deliver_volume_entries mul g pas L) L' eol).qlMatchedSinks
        = [] ∧
      (deliver_restore_listing eq (deliver_volume_entries mul g pas L) L' eol).qhUnmatchedSinks
        = [] := by
    by_cases hm : pas.qhMissingSinks = []
    · have hend : deliver_restore_listing eq (deliver_volume_entries mul g pas L) L' eol
          = restore_volume_success_callback
              { deliver_restore_entries eq (deliver_volume_entries mul g pas L) L' with
                qlMatchedSinks := [], qhUnmatchedSinks := [], qhVolumes := [] } := by
        simp only [deliver_restore_listing, restore_sink_input_list_callback, hne, hnl,
          if_false]
        rw [hfold]
        simp [QHash.count, r4, hm1, hm]
      obtain ⟨wk, w1, _, w3, w4, w5, w6, _, _⟩ := restore_volume_success_callback_summary
        { deliver_restore_entries eq (deliver_volume_entries mul g pas L) L' with
          qlMatchedSinks := [], qhUnmatchedSinks := [], qhVolumes := [] }
      refine ⟨wk, ?_, ?_, ?_, ?_, ?_⟩
      · rcases w3 with h | ⟨h, _, _⟩
        · exact Or.inl h
        · exact Or.inr h
      · rw [hend, w1, if_pos hm, List.append_nil]
      · rw [hend, w4]
      · rw [hend, w5]
      · rw [hend, w6]
    · have hcount : 0 < QHash.count pas.qhMissingSinks := by
        unfold QHash.count
        exact List.length_pos.mpr hm
      have hend : deliver_restore_listing eq (deliver_volume_entries mul g pas L) L' eol
          = restore_volume_success_callback
              { deliver_restore_entries eq (deliver_volume_entries mul g pas L) L' with
                qlMatchedSinks := [], qhUnmatchedSinks := [], qhVolumes := []
                iRemainingOperations :=
                  (deliver_restore_entries eq (deliver_volume_entries mul g pas L)
                    L').iRemainingOperations + 1
                issued :=
                  (deliver_restore_entries eq (deliver_volume_entries mul g pas L) L').issued
                    ++ [Effect.pa_ext_stream_restore_read] } := by
        simp only [deliver_restore_listing, restore_sink_input_list_callback, hne, hnl,
          if_false]
        rw [hfold]
        simp [r4, hm1, hcount]
      obtain ⟨wk, w1, _, w3, w4, w5, w6, _, _⟩ := restore_volume_success_callback_summary
        { deliver_restore_entries eq (deliver_volume_entries mul g pas L) L' with
          qlMatchedSinks := [], qhUnmatchedSinks := [], qhVolumes := []
          iRemainingOperations :=
            (deliver_restore_entries eq (deliver_volume_entries mul g pas L)
              L').iRemainingOperations + 1
          issued :=
            (deliver_restore_entries eq (deliver_volume_entries mul g pas L) L').issued
              ++ [Effect.pa_ext_stream_restore_read] }
      refine ⟨wk, ?_, ?_, ?_, ?_, ?_⟩
      · rcases w3 with h | ⟨h, _, _⟩
        · exact Or.inl h
        · exact Or.inr h
      · rw [hend, w1, if_neg hm]
      · rw [hend, w4]
      · rw [hend, w5]
      · rw [hend, w6]
  obtain ⟨wk, hwk, k1, k2, k3, k4⟩ := key
  have hiss : issuedBy (fun s => deliver_restore_listing eq s L' eol)
      (deliver_volume_entries mul g pas L)
      = (L.filter (fun i => decide (i.name ≠ "Mumble Speakers"))).map
          (fun i => Effect.pa_context_set_sink_input_volume i.index i.volume true)
        ++ (if pas.qhMissingSinks = [] then [] else [Effect.pa_ext_stream_restore_read])
        ++ wk := by
    apply issuedBy_eq_of_append
    show (deliver_restore_listing eq (deliver_volume_entries mul g pas L) L' eol).issued = _
    rw [k1, r1, List.append_assoc, List.append_assoc, List.append_assoc]
    rfl
  have hwkf : ∀ k, wk.filter (Effect.setsVolumeOf k) = [] := by
    intro k
    rcases hwk with rfl | rfl <;> simp [Effect.setsVolumeOf]
  have hrdf : ∀ k, (if pas.qhMissingSinks = [] then []
      else [Effect.pa_ext_stream_restore_read]).filter (Effect.setsVolumeOf k) = [] := by
    intro k
    split_ifs <;> simp [Effect.setsVolumeOf]
  refine ⟨⟨wk, hwk, hiss⟩, ?_, ?_, ?_, k2, k3, k4⟩
  · intro i hi hn
    have hmem : i ∈ L.filter (fun i => decide (i.name ≠ "Mumble Speakers")) :=
      List.mem_filter.mpr ⟨hi, by simpa using hn⟩
    have hnd' : ((L.filter (fun i => decide (i.name ≠ "Mumble Speakers"))).map
        (fun j => j.index)).Nodup := hnd.sublist ((List.filter_sublist L).map _)
    rw [hiss, List.filter_append, List.filter_append, hwkf, hrdf, List.append_nil,
      List.append_nil, filter_setsVolumeOf_map, filter_index_eq_of_nodup _ hnd' i hmem]
    rfl
  · intro i hi hn
    rw [hiss, List.filter_append, List.filter_append, hwkf, hrdf, List.append_nil,
      List.append_nil, filter_setsVolumeOf_map]
    have : (L.filter (fun i => decide (i.name ≠ "Mumble Speakers"))).filter
        (fun j => decide (j.index = i.index)) = [] := by
      rw [List.filter_eq_nil_iff]
      intro j hj hji
      obtain ⟨hjL, hjn⟩ := List.mem_filter.mp hj
      have hji' : j.index = i.index := by simpa using hji
      have : j = i := List.inj_on_of_nodup_map hnd hjL hi hji'
      subst this
      simp [hn] at hjn
    rw [this]
    rfl
  · rw [hiss]
    constructor
    · intro h hm
      rw [if_pos hm, List.append_nil] at h
      rcases List.mem_append.mp h with h | h
      · obtain ⟨_, _, h⟩ := List.mem_map.mp h
        simp at h
      · rcases hwk with rfl | rfl <;> simp at h
    · intro hm
      rw [if_neg hm]
      simp

/-- Instance of C1 on `exampleListing`: the music player is reset to its
original volume exactly once. -/
theorem attenuate_then_restore_round_trip_witness :
    exampleSystem.qhVolumes = [] ∧
    (exampleListing.map (fun i => i.index)).Nodup ∧
    (issuedBy (fun s => deliver_restore_listing exampleEqual s exampleListingAttenuated 1)
        (deliver_volume_entries exampleScale exampleGlobal exampleSystem exampleListing)).filter
          (Effect.setsVolumeOf 7)
      = [Effect.pa_context_set_sink_input_volume 7 (exampleVolume 65536) true] :=
  ⟨rfl, by decide,
    (attenuate_then_restore_round_trip exampleEqual exampleScale exampleGlobal exampleSystem
      exampleListing exampleListingAttenuated 1 rfl (by decide)
      (List.Forall₂.cons ⟨rfl, rfl, fun _ => by decide⟩
        (List.Forall₂.cons ⟨rfl, rfl, fun h => absurd rfl h⟩ List.Forall₂.nil))
      (fun _ _ _ => decide_eq_true rfl) (by decide)).2.1
      _ (List.mem_cons_self _ _) (by decide)⟩

/-- C1 as stated fails: it promises that no stream-restore read is issued
whenever `qhVolumes` starts empty.  Restoring `exampleAttenuating` after
its stream has gone leaves `qhVolumes` empty with a stream-restore read
unanswered (`exampleReadPending`); the round trip over `exampleListing` from
there meets every premise and yet issues `pa_ext_stream_restore_read`. -/
theorem round_trip_reads_while_read_pending :
    Option.map World.pas (World.run exampleEqual exampleScale (World.init exampleAttenuating)
        [Event.setVolumes false, Event.restore_list default 1]) = some exampleReadPending ∧
    exampleReadPending.qhVolumes = [] ∧
    (exampleListing.map (fun i => i.index)).Nodup ∧
    List.Forall₂ (fun i i' : pa_sink_input_info => i'.index = i.index ∧ i'.name = i.name ∧
      (i.name ≠ "Mumble Speakers" →
        i'.volume = exampleScale i.volume exampleGlobal.s.otherVolumeAdj))
      exampleListing exampleListingAttenuated ∧
    (∀ i ∈ exampleListingAttenuated, i.name ≠ "Mumble Speakers" →
      ∃ patt, QHash.find? (deliver_volume_entries exampleScale exampleGlobal
          exampleReadPending exampleListing).qhVolumes i.index = some patt ∧
        i.volume = patt.attenuated_volume) ∧
    (∀ i ∈ exampleListingAttenuated, exampleEqual i.volume i.volume = true) ∧
    Effect.pa_ext_stream_restore_read ∈
      issuedBy (fun s => deliver_restore_listing exampleEqual s exampleListingAttenuated 1)
        (deliver_volume_entries exampleScale exampleGlobal exampleReadPending exampleListing) :=
  ⟨rfl, rfl, by decide,
    List.Forall₂.cons ⟨rfl, rfl, fun _ => by decide⟩
      (List.Forall₂.cons ⟨rfl, rfl, fun h => absurd rfl h⟩ List.Forall₂.nil),
    by decide, by decide, by decide⟩

/-- An isolated pass on `exampleAttenuating`: the reset issued for sink input 7
is justified by the listing entry that reports the attenuated volume. -/
theorem restore_only_resets_attenuated_witness :
    exampleAttenuating.qhUnmatchedSinks = [] ∧ (0 : Int) < 1 ∧
    ∃ i ∈ exampleListingAttenuated, i.index = 7 ∧ ∃ it ∈ exampleAttenuating.qhVolumes,
      exampleEqual i.volume it.2.attenuated_volume = true ∧
      exampleVolume 65536 = it.2.normal_volume :=
  ⟨rfl, by decide,
    (restore_only_resets_attenuated exampleEqual exampleAttenuating exampleListingAttenuated 1
      rfl (by decide)).1 7 (exampleVolume 65536) true (by decide)⟩

/-- C11: when `write_callback` runs with a `PulseAudioOutput` active,
`bAttenuating` afterwards is `g.bAttenuateOthers || (m && g.s.bAttenuateOthers)`
where `m` is the result of `pao->mix`; `setVolumes()` is called exactly when that
value differs from `bAttenuating` before the call (and then everything
`setVolumes()` issues for the new value precedes the write); exactly one
`pa_stream_write` is issued, last, and when `mix` returns false its bytes are all
zero.  When no `PulseAudioOutput` is active, the state is unchanged apart from
the log, `setVolumes()` is not called, and exactly the requested number of zero
bytes is written before the event callback is woken. -/
theorem write_callback_decides_attenuation (g : Global) (pas : PulseAudioSystem)
    (bytes iSampleSize : Nat) (mix : Nat → Bool × List Nat) :
    (g.ao = AudioKind.pulse →
      (write_callback g pas bytes iSampleSize mix).bAttenuating
        = (g.bAttenuateOthers ||
            ((mix ((bytes / iSampleSize) % 4294967296)).1 && g.s.bAttenuateOthers)) ∧
      (Effect.setVolumes_called ∈
          issuedBy (fun s => write_callback g s bytes iSampleSize mix) pas ↔
        (g.bAttenuateOthers ||
            ((mix ((bytes / iSampleSize) % 4294967296)).1 && g.s.bAttenuateOthers))
          ≠ pas.bAttenuating) ∧
      (∃ data,
        issuedBy (fun s => write_callback g s bytes iSampleSize mix) pas
          = (if (g.bAttenuateOthers ||
                  ((mix ((bytes / iSampleSize) % 4294967296)).1 && g.s.bAttenuateOthers))
                ≠ pas.bAttenuating then
              Effect.setVolumes_called :: issuedBy setVolumes
                { pas with bAttenuating := (g.bAttenuateOthers ||
                    ((mix ((bytes / iSampleSize) % 4294967296)).1 && g.s.bAttenuateOthers)) }
             else []) ++ [Effect.pa_stream_write StreamRole.pasOutput data] ∧
        ((mix ((bytes / iSampleSize) % 4294967296)).1 = false →
          data = List.replicate
            (min ((iSampleSize * ((bytes / iSampleSize) % 4294967296)) % 4294967296) bytes)
            0))) ∧
    (g.ao ≠ AudioKind.pulse →
      write_callback g pas bytes iSampleSize mix
        = { pas with
            issued := pas.issued ++
              [Effect.pa_stream_write StreamRole.pasOutput (List.replicate bytes 0),
               Effect.defer_enable true] } ∧
      (write_callback g pas bytes iSampleSize mix).bAttenuating = pas.bAttenuating ∧
      Effect.setVolumes_called ∉
        issuedBy (fun s => write_callback g s bytes iSampleSize mix) pas ∧
      issuedBy (fun s => write_callback g s bytes iSampleSize mix) pas
        = [Effect.pa_stream_write StreamRole.pasOutput (List.replicate bytes 0),
           Effect.defer_enable true]) := by
  constructor
  · intro hao
    rcases hm : mix ((bytes / iSampleSize) % 4294967296) with ⟨m, buf⟩
    refine ⟨?_, ?_, ?_⟩
    · cases m <;> cases hA : g.bAttenuateOthers <;> cases hS : g.s.bAttenuateOthers <;>
        cases hb : pas.bAttenuating <;>
        simp [write_callback, hao, hm, hA, hS, hb, setVolumes] <;>
        (try split_ifs) <;> (try simp)
    · cases m <;> cases hA : g.bAttenuateOthers <;> cases hS : g.s.bAttenuateOthers <;>
        cases hb : pas.bAttenuating <;>
        simp [write_callback, hao, hm, hA, hS, hb, setVolumes, issuedBy] <;>
        (try split_ifs) <;> (try simp)
    · refine ⟨(if m = true then buf else List.replicate bytes 0).take
        ((iSampleSize * ((bytes / iSampleSize) % 4294967296)) % 4294967296), ?_, ?_⟩
      · cases m <;> cases hA : g.bAttenuateOthers <;> cases hS : g.s.bAttenuateOthers <;>
          cases hb : pas.bAttenuating <;>
          simp [write_callback, hao, hm, hA, hS, hb, setVolumes, issuedBy] <;>
          (try split_ifs) <;> (try simp)
      · intro hmf
        simp only [] at hmf
        subst hmf
        simp [List.take_replicate]
  · intro hao
    have hw : write_callback g pas bytes iSampleSize mix
        = { pas with
            issued := pas.issued ++
              [Effect.pa_stream_write StreamRole.pasOutput (List.replicate bytes 0),
               Effect.defer_enable true] } := by
      simp [write_callback, hao, wakeup, defer_enable]
    have hi : issuedBy (fun s => write_callback g s bytes iSampleSize mix) pas
        = [Effect.pa_stream_write StreamRole.pasOutput (List.replicate bytes 0),
           Effect.defer_enable true] := by
      apply issuedBy_eq_of_append
      rw [hw]
    refine ⟨hw, by rw [hw], ?_, hi⟩
    rw [hi]
    simp

/-- With attenuation enabled in the settings and nothing attenuated yet: a
request that finds audio to mix starts the attenuation listing before writing,
and a request that finds none writes zeros only. -/
theorem write_callback_examples :
    issuedBy (fun s => write_callback exampleGlobal s 4 2 (fun _ => (true, [1, 2, 3, 4])))
        exampleSystem
      = [Effect.setVolumes_called, Effect.pa_context_get_sink_input_info_list false,
         Effect.pa_stream_write StreamRole.pasOutput [1, 2, 3, 4]] ∧
    issuedBy (fun s => write_callback exampleGlobal s 5 2 (fun _ => (false, [1, 2, 3, 4, 5])))
        exampleSystem
      = [Effect.pa_stream_write StreamRole.pasOutput [0, 0, 0, 0]] := by
  constructor <;> decide

/-! ## Subscription events -/

theorem query_issued (tr : String → String) (pas : PulseAudioSystem) :
    issuedBy (query tr) pas =
      [Effect.pa_context_get_server_info, Effect.pa_context_get_sink_info_list,
       Effect.pa_context_get_source_info_list, Effect.defer_enable true] := by
  apply issuedBy_eq_of_append
  simp [query, wakeup, defer_enable]

/-- C12: for every subscription event value `evt`, `subscribe_callback` calls
`query()` (the three enumeration requests and the wake-up of the event callback
are issued) exactly when `evt & PA_SUBSCRIPTION_EVENT_TYPE_MASK` is
`PA_SUBSCRIPTION_EVENT_NEW` or `PA_SUBSCRIPTION_EVENT_REMOVE` and
`evt & PA_SUBSCRIPTION_EVENT_FACILITY_MASK` is `PA_SUBSCRIPTION_EVENT_SINK` or
`PA_SUBSCRIPTION_EVENT_SOURCE`; for every other event the state is unchanged and
nothing is issued. -/
theorem subscribe_callback_requeries_on_card_change (c : pa_subscription_consts)
    (tr : String → String) (pas : PulseAudioSystem) (evt : Nat) :
    (Effect.pa_context_get_sink_info_list ∈
        issuedBy (fun s => subscribe_callback c tr s evt) pas ↔
      ((evt &&& c.PA_SUBSCRIPTION_EVENT_TYPE_MASK = c.PA_SUBSCRIPTION_EVENT_NEW ∨
          evt &&& c.PA_SUBSCRIPTION_EVENT_TYPE_MASK = c.PA_SUBSCRIPTION_EVENT_REMOVE) ∧
        (evt &&& c.PA_SUBSCRIPTION_EVENT_FACILITY_MASK = c.PA_SUBSCRIPTION_EVENT_SINK ∨
          evt &&& c.PA_SUBSCRIPTION_EVENT_FACILITY_MASK = c.PA_SUBSCRIPTION_EVENT_SOURCE))) ∧
    (((evt &&& c.PA_SUBSCRIPTION_EVENT_TYPE_MASK = c.PA_SUBSCRIPTION_EVENT_NEW ∨
          evt &&& c.PA_SUBSCRIPTION_EVENT_TYPE_MASK = c.PA_SUBSCRIPTION_EVENT_REMOVE) ∧
        (evt &&& c.PA_SUBSCRIPTION_EVENT_FACILITY_MASK = c.PA_SUBSCRIPTION_EVENT_SINK ∨
          evt &&& c.PA_SUBSCRIPTION_EVENT_FACILITY_MASK = c.PA_SUBSCRIPTION_EVENT_SOURCE)) →
      subscribe_callback c tr pas evt = query tr pas ∧
      issuedBy (fun s => subscribe_callback c tr s evt) pas =
        [Effect.pa_context_get_server_info, Effect.pa_context_get_sink_info_list,
         Effect.pa_context_get_source_info_list, Effect.defer_enable true]) ∧
    (¬ ((evt &&& c.PA_SUBSCRIPTION_EVENT_TYPE_MASK = c.PA_SUBSCRIPTION_EVENT_NEW ∨
          evt &&& c.PA_SUBSCRIPTION_EVENT_TYPE_MASK = c.PA_SUBSCRIPTION_EVENT_REMOVE) ∧
        (evt &&& c.PA_SUBSCRIPTION_EVENT_FACILITY_MASK = c.PA_SUBSCRIPTION_EVENT_SINK ∨
          evt &&& c.PA_SUBSCRIPTION_EVENT_FACILITY_MASK = c.PA_SUBSCRIPTION_EVENT_SOURCE)) →
      subscribe_callback c tr pas evt = pas ∧
      issuedBy (fun s => subscribe_callback c tr s evt) pas = []) := by
  have hq : ((evt &&& c.PA_SUBSCRIPTION_EVENT_TYPE_MASK = c.PA_SUBSCRIPTION_EVENT_NEW ∨
          evt &&& c.PA_SUBSCRIPTION_EVENT_TYPE_MASK = c.PA_SUBSCRIPTION_EVENT_REMOVE) ∧
        (evt &&& c.PA_SUBSCRIPTION_EVENT_FACILITY_MASK = c.PA_SUBSCRIPTION_EVENT_SINK ∨
          evt &&& c.PA_SUBSCRIPTION_EVENT_FACILITY_MASK = c.PA_SUBSCRIPTION_EVENT_SOURCE)) →
      subscribe_callback c tr pas evt = query tr pas := by
    intro h
    simp only [subscribe_callback, h.1, h.2, if_true]
  have hn : ¬ ((evt &&& c.PA_SUBSCRIPTION_EVENT_TYPE_MASK = c.PA_SUBSCRIPTION_EVENT_NEW ∨
          evt &&& c.PA_SUBSCRIPTION_EVENT_TYPE_MASK = c.PA_SUBSCRIPTION_EVENT_REMOVE) ∧
        (evt &&& c.PA_SUBSCRIPTION_EVENT_FACILITY_MASK = c.PA_SUBSCRIPTION_EVENT_SINK ∨
          evt &&& c.PA_SUBSCRIPTION_EVENT_FACILITY_MASK = c.PA_SUBSCRIPTION_EVENT_SOURCE)) →
      subscribe_callback c tr pas evt = pas := by
    intro h
    unfold subscribe_callback
    split_ifs with h1 h2
    · exact absurd ⟨h1, h2⟩ h
    · rfl
    · rfl
  have hiq : ∀ h : subscribe_callback c tr pas evt = query tr pas,
      issuedBy (fun s => subscribe_callback c tr s evt) pas = issuedBy (query tr) pas := by
    intro h
    simp only [issuedBy, h]
  have hin : ∀ h : subscribe_callback c tr pas evt = pas,
      issuedBy (fun s => subscribe_callback c tr s evt) pas = [] := by
    intro h
    simp [issuedBy, h]
  refine ⟨?_, ?_, ?_⟩
  · constructor
    · intro hmem
      by_contra hc
      rw [hin (hn hc)] at hmem
      simp at hmem
    · intro h
      rw [hiq (hq h), query_issued]
      simp
  · intro h
    exact ⟨hq h, by rw [hiq (hq h), query_issued]⟩
  · intro h
    exact ⟨hn h, hin (hn h)⟩

/-- With the values libpulse gives the constants: a removed source makes the
system enumerate again, a changed sink and a new sink input do not. -/
theorem subscribe_callback_examples (tr : String → String) :
    subscribe_callback examplePulseConsts tr exampleSystem 0x21 = query tr exampleSystem ∧
    subscribe_callback examplePulseConsts tr exampleSystem 0x10 = exampleSystem ∧
    subscribe_callback examplePulseConsts tr exampleSystem 0x02 = exampleSystem := by
  refine ⟨?_, ?_, ?_⟩ <;> rfl

end Mumble
